import Mathlib

/-!
Verification of the dynamic plan executor and generic CRUD dispatcher of the
`autonomous-app` repository.  The executable definitions below are a shallow
embedding of `app/api/agents/complex-executor.ts` (the dynamic `ComplexExecutor`
class), `app/api/agents/dynamic-crud-handler.ts` (`DynamicCrudHandler`), and the
fallback paths of `intelligent-responder.ts` (`IntelligentResponder`).

Modelling conventions:
* JavaScript's loosely typed runtime values are modelled by `JValue`
  (`undefined` is modelled as the absence of an entry, i.e. `Option.none`).
* JavaScript objects holding data records are modelled as association lists
  `List (String × α)`; assignment keeps the original key position and appends
  new keys, matching JS property-order semantics.
* The two external collaborators (the LLM and the Convex store) are oracles:
  the store oracle may fail (`Except String String` models a rejected call),
  the LLM field-extraction oracle either yields a parsed record or fails.
* The executor's dispatcher boundary is an environment `ExecEnv` indexed by a
  call counter so that successive calls may observe different store states;
  a `.error` response models a rejected promise (an exception) at the only
  effectful point of a step body.
* All executor functions also return the list of dispatcher calls they issue,
  so that "the Dispatcher is not invoked" is a provable statement.
-/

/-- Loosely typed JavaScript runtime value.  `undefined` is represented by
absence (`Option.none`) wherever it can occur. Numbers are modelled as
integers: every numeric the executor manipulates (counts, limits, repeat
counts, condition values) is integral. -/
inductive JValue where
  | jstr (s : String)
  | jnum (n : Int)
  | jbool (b : Bool)
  | jnull
deriving DecidableEq, Repr

/-- JavaScript truthiness of an optional value (`undefined`, `null`, `""`,
`0` and `false` are falsy). -/
def jsTruthy : Option JValue → Bool
  | none => false
  | some .jnull => false
  | some (.jbool b) => b
  | some (.jnum n) => n != 0
  | some (.jstr s) => s != ""

/-- JavaScript `String(value)` coercion for the values of `JValue`. -/
def jsToString : JValue → String
  | .jstr s => s
  | .jnum n => toString n
  | .jbool b => if b then "true" else "false"
  | .jnull => "null"

/-- Lookup in an association list modelling a JS object / `Map`. -/
def aFind {α : Type} : List (String × α) → String → Option α
  | [], _ => none
  | (k, v) :: rest, key => if k = key then some v else aFind rest key

/-- Assignment in an association list modelling a JS object: an existing key
keeps its position, a new key is appended (JS property-order semantics). -/
def aSet {α : Type} : List (String × α) → String → α → List (String × α)
  | [], key, v => [(key, v)]
  | (k, w) :: rest, key, v =>
    if k = key then (k, v) :: rest else (k, w) :: aSet rest key v

/-- Does the character list start with the given pattern? -/
def listStartsWith : List Char → List Char → Bool
  | _, [] => true
  | [], _ :: _ => false
  | c :: cs, p :: ps => c = p && listStartsWith cs ps

/-- Substring test on character lists (JS `String.prototype.includes`). -/
def listContainsSub (pat : List Char) : List Char → Bool
  | [] => pat.isEmpty
  | s@(_ :: rest) => listStartsWith s pat || listContainsSub pat rest

/-- Substring test on strings (JS `a.includes(b)`). -/
def containsSubstr (s pat : String) : Bool := listContainsSub pat.data s.data

-- ============= DATA MODEL (complex-executor.ts, dynamic-crud-handler.ts) =============

/-- The `OperationType` union of `complex-executor.ts`. -/
inductive OperationType where
  | create | read | update | delete | list
deriving DecidableEq, Repr

/-- The uppercase operation union used by `DynamicCrudHandler.handleCrudOperation`. -/
inductive CrudOp where
  | CREATE | READ | UPDATE | DELETE | LIST
deriving DecidableEq, Repr

/-- The `step.operation.toUpperCase()` conversion in `executeSingleOperation`. -/
def OperationType.toUpper : OperationType → CrudOp
  | .create => .CREATE
  | .read => .READ
  | .update => .UPDATE
  | .delete => .DELETE
  | .list => .LIST

/-- The string name of an uppercase operation (used in result envelopes). -/
def CrudOp.opName : CrudOp → String
  | .CREATE => "CREATE"
  | .READ => "READ"
  | .UPDATE => "UPDATE"
  | .DELETE => "DELETE"
  | .LIST => "LIST"

/-- The `PlanCondition.type` union. `exists_` and `not_exists` stand for the
source's `"exists"` and `"not_exists"` (`exists` is a Lean keyword). -/
inductive ConditionType where
  | count_gt | count_gte | count_lt | count_lte | count_eq | exists_ | not_exists
deriving DecidableEq, Repr

/-- The `PlanCondition.field` union (`"count"` / `"items.length"`). -/
inductive CondField where
  | count | itemsLength
deriving DecidableEq, Repr

/-- The `PlanCondition` interface of `complex-executor.ts`. -/
structure PlanCondition where
  type : ConditionType
  fromStep : String
  field : Option CondField := none
  value : Option Int := none
deriving DecidableEq, Repr

/-- Sort direction of `ExecutionPlanStep.sort.order`. -/
inductive SortOrder where
  | asc | desc
deriving DecidableEq, Repr

/-- The `sort : { by, order }` record of a plan step (`by` is a Lean keyword,
so the field is called `sortBy`). -/
structure SortSpec where
  sortBy : String
  order : SortOrder
deriving DecidableEq, Repr

/-- The `ExecutionPlanStep` interface.  `repeatN` stands for the source's
`repeat` field (`repeat` is a Lean keyword).  `data`, `filter` and
`dataTemplate` are JS records, modelled as association lists. -/
structure ExecutionPlanStep where
  id : String
  purpose : Option String := none
  operation : OperationType
  entityType : String
  data : Option (List (String × JValue)) := none
  identifier : Option String := none
  filter : Option (List (String × JValue)) := none
  sort : Option SortSpec := none
  limit : Option Int := none
  condition : Option PlanCondition := none
  repeatN : Option Int := none
  fromStep : Option String := none
  dataTemplate : Option (List (String × JValue)) := none
deriving DecidableEq, Repr

/-- The `ExecutionPlan` interface. -/
structure ExecutionPlan where
  steps : List ExecutionPlanStep
deriving DecidableEq, Repr

/-- An item of a list-shaped step result, as built by `executeSingleOperation`
from a line of the store's formatted list output: `{ email, name, _raw }`,
where `email` and `name` are string-or-null (`none` models `null`). -/
structure Item where
  email : Option String
  name : Option String
  raw : String
deriving DecidableEq, Repr

/-- JS property read `item[field]` on a parsed `Item` (`none` = `undefined`). -/
def itemGet (it : Item) : String → Option JValue
  | "email" => some (match it.email with | some s => .jstr s | none => .jnull)
  | "name" => some (match it.name with | some s => .jstr s | none => .jnull)
  | "_raw" => some (.jstr it.raw)
  | _ => none

/-- Tag recorded in `StepResult.meta`.  The source also stores the per-item
`results` array inside `meta` for diagnostics; that nested payload is omitted
here (it would make `StepResult` a nested inductive and no claim concerns it). -/
inductive StepMeta where
  | skippedTag
  | repeatedTag (times : Int)
  | processedItemsTag (n : Nat)
deriving DecidableEq, Repr

/-- The `StepResult` interface of `complex-executor.ts`. -/
structure StepResult where
  stepId : String
  success : Bool
  operation : OperationType
  entityType : String
  items : Option (List Item) := none
  count : Option Nat := none
  ids : Option (List String) := none
  details : Option String := none
  meta : Option StepMeta := none
  error : Option String := none
deriving DecidableEq, Repr

-- ============= CONDITION EVALUATION (complex-executor.ts lines 808-856) =============

/-- The comparison value computed inside `evaluateCondition`:
`field == "count"` (the default) gives `priorStep.count ?? priorStep.items?.length ?? 0`,
`field == "items.length"` gives `priorStep.items?.length ?? 0`. -/
def actualValueOf (priorStep : StepResult) (field : Option CondField) : Nat :=
  match field.getD .count with
  | .count =>
    match priorStep.count with
    | some n => n
    | none =>
      match priorStep.items with
      | some its => its.length
      | none => 0
  | .itemsLength =>
    match priorStep.items with
    | some its => its.length
    | none => 0

/-- `ComplexExecutor.evaluateCondition`: resolves the referenced prior step
(false when absent), computes the comparison value and applies the comparator
against `condition.value ?? 0`. -/
def evaluateCondition (condition : PlanCondition)
    (priorResults : List (String × StepResult)) : Bool :=
  match aFind priorResults condition.fromStep with
  | none => false
  | some priorStep =>
    let actualValue : Int := (actualValueOf priorStep condition.field : Nat)
    let targetValue : Int := condition.value.getD 0
    match condition.type with
    | .count_gt => decide (actualValue > targetValue)
    | .count_gte => decide (actualValue ≥ targetValue)
    | .count_lt => decide (actualValue < targetValue)
    | .count_lte => decide (actualValue ≤ targetValue)
    | .count_eq => decide (actualValue = targetValue)
    | .exists_ => decide (actualValue > 0)
    | .not_exists => decide (actualValue = 0)

-- ============= ENTITY REGISTRY (dynamic-crud-handler.ts) =============

/-- Field type names of `EntityConfig.fields[*].type`. -/
inductive FieldType where
  | string | number | boolean | optional_string | optional_number
deriving DecidableEq, Repr

/-- One field description of an `EntityConfig` (`ftype` stands for the
source's `type` attribute, to avoid clashing with the structure keyword). -/
structure FieldConfig where
  ftype : FieldType
  required : Bool
  validate : Option (JValue → Bool) := none

/-- The `operations` record of an `EntityConfig`: operation-path strings. -/
structure EntityOperations where
  create : Option String := none
  read : Option String := none
  update : Option String := none
  delete : Option String := none
  list : Option String := none

/-- The `EntityConfig` interface of `dynamic-crud-handler.ts`.  `fields` is an
ordered mapping, modelled as an association list in declaration order. -/
structure EntityConfig where
  table : String
  operations : EntityOperations
  fields : List (String × FieldConfig)
  identifierField : String

/-- The handler's registry `entityConfigs : Map<string, EntityConfig>`,
as an association list (insertion order, updated by `aSet`). -/
def Registry : Type := List (String × EntityConfig)

/-- JS whitespace class `\s` (restricted to the ASCII whitespace characters,
which are the only ones this system's strings contain). -/
def isJsWhitespace (c : Char) : Bool :=
  c = ' ' || c = '\t' || c = '\n' || c = '\r' || c = '\x0b' || c = '\x0c'

/-- Character class `[^\s@]` of the email regex. -/
def emailAtomChar (c : Char) : Bool := !isJsWhitespace c && c != '@'

/-- Is there a `'.'` at any position other than the last one? -/
def dotBeforeLast : List Char → Bool
  | [] => false
  | [_] => false
  | c :: rest => c = '.' || dotBeforeLast rest

/-- Is there a `'.'` at an internal position (neither first nor last)? -/
def hasInternalDot : List Char → Bool
  | [] => false
  | _ :: rest => dotBeforeLast rest

/-- `DynamicCrudHandler.validateEmail`: the test
`/^[^\s@]+@[^\s@]+\.[^\s@]+$/.test(email)`.  The string must split as
`local@domain` at its first `'@'`, with a nonempty no-whitespace-no-`@`
local part, and a domain with no whitespace or `'@'` containing a dot that
has at least one character on each side. -/
def validateEmail (email : String) : Bool :=
  let cs := email.data
  let localPart := cs.takeWhile (fun c => c != '@')
  match cs.drop localPart.length with
  | '@' :: domainPart =>
    !localPart.isEmpty && localPart.all emailAtomChar &&
    !domainPart.isEmpty && domainPart.all emailAtomChar &&
    hasInternalDot domainPart
  | _ => false

/-- The `users` configuration registered by `initializeEntityConfigs`. -/
def usersConfig : EntityConfig := {
  table := "users"
  operations := {
    create := some ("functions.users.createUser")
    read := some ("functions.users.getUser")
    update := some ("functions.users.updateUser")
    delete := some ("functions.users.deleteUser")
    list := some ("functions.users.listUsers") }
  fields := [
    ("name", { ftype := .string, required := true }),
    ("email", { ftype := .string, required := true,
                validate := some (fun v => match v with
                  | .jstr s => validateEmail s
                  | _ => false) }),
    ("bio", { ftype := .optional_string, required := false }),
    ("location", { ftype := .optional_string, required := false }),
    ("website", { ftype := .optional_string, required := false })]
  identifierField := "email" }

/-- The registry as initialized at construction time (`users` only; the
commented-out `products` block is not registered). -/
def defaultRegistry : Registry := [("users", usersConfig)]

/-- `DynamicCrudHandler.getAvailableEntityTypes`. -/
def getAvailableEntityTypes (reg : Registry) : List String := reg.map (·.1)

-- ============= GENERIC CRUD DISPATCHER (dynamic-crud-handler.ts) =============

/-- The uniform result envelope (`CrudResult` zod schema). -/
structure CrudResult where
  success : Bool
  operation : String
  table : String
  details : String
  data : Option (List (String × JValue)) := none
  error : Option String := none
deriving Repr

/-- One invocation of a store operation (`convex.query` / `convex.mutation`
with a resolved operation path and a flat argument record). -/
structure StoreCall where
  op : String
  args : List (String × JValue)
deriving DecidableEq, Repr

/-- The external collaborators of one dispatch: the LLM call made by
`extractEntityData` (either a parsed record of additional fields or a
failure, which the source swallows), and the store (a call either resolves
to a result string or rejects with an error message). -/
structure CrudOracles where
  extractLLM : Option (List (String × JValue))
  store : StoreCall → Except String String

/-- Outcome of one operation handler: a result or a thrown exception, plus
the store calls that were issued. -/
def HandlerOut : Type := Except String CrudResult × List StoreCall

/-- `DynamicCrudHandler.executeOperation`: issues the store call; any failure
(unresolvable operation path or a rejected Convex call) is rethrown wrapped
in a `Failed to execute` message. -/
def executeOperation (store : StoreCall → Except String String)
    (operation : String) (args : List (String × JValue)) :
    Except String String × List StoreCall :=
  let call : StoreCall := { op := operation, args := args }
  match store call with
  | .ok s => (.ok s, [call])
  | .error e => (.error ("Failed to execute " ++ operation ++ ": " ++ e), [call])

/-- `DynamicCrudHandler.extractEntityData`: seeds the draft record with the
hints whose `type` is a declared field, then best-effort merges the
LLM-extracted record (failures are swallowed, keeping what is known). -/
def extractEntityData (config : EntityConfig)
    (extractLLM : Option (List (String × JValue)))
    (entities : List (String × String)) : List (String × JValue) :=
  let data := entities.foldl (fun d e =>
    match aFind config.fields e.1 with
    | some _ => aSet d e.1 (.jstr e.2)
    | none => d) []
  match extractLLM with
  | some extracted => extracted.foldl (fun d kv => aSet d kv.1 kv.2) data
  | none => data

/-- Result record of `validateEntityData`. -/
structure ValidationResult where
  valid : Bool
  error : Option String := none
deriving Repr

/-- The validation message for a missing required field. -/
def requiredMsg (field : String) : String :=
  "Required field '" ++ field ++ "' is missing"

/-- The validation message for a failed custom validator. -/
def invalidMsg (field : String) : String :=
  "Invalid value for field '" ++ field ++ "'"

/-- First declared field that is required but has a falsy value in the data
(the first loop of `validateEntityData`, `CREATE` only). -/
def findMissingRequired (fields : List (String × FieldConfig))
    (data : List (String × JValue)) : Option String :=
  match fields with
  | [] => none
  | (f, fc) :: rest =>
    if fc.required && !jsTruthy (aFind data f) then some f
    else findMissingRequired rest data

/-- First data entry whose declared custom validator rejects its value
(the second loop of `validateEntityData`). -/
def findInvalidField (config : EntityConfig) :
    List (String × JValue) → Option String
  | [] => none
  | (f, v) :: rest =>
    match aFind config.fields f with
    | some fc =>
      match fc.validate with
      | some validator =>
        if !validator v then some f else findInvalidField config rest
      | none => findInvalidField config rest
    | none => findInvalidField config rest

/-- `DynamicCrudHandler.validateEntityData`: for `CREATE`, required fields
must be truthy; for all operations, every data entry with a declared custom
validator must pass it.  The first failure is reported. -/
def validateEntityData (config : EntityConfig) (data : List (String × JValue))
    (operation : CrudOp) : ValidationResult :=
  match (if operation = .CREATE then findMissingRequired config.fields data
         else none) with
  | some f => { valid := false, error := some (requiredMsg f) }
  | none =>
    match findInvalidField config data with
    | some f => { valid := false, error := some (invalidMsg f) }
    | none => { valid := true }

/-- Does a data entry trip a declared custom validator?  (The boolean form
of the test in the second loop of `validateEntityData`.) -/
def validatorRejects (config : EntityConfig) (kv : String × JValue) : Bool :=
  match aFind config.fields kv.1 with
  | some fc =>
    (match fc.validate with
     | some validator => !validator kv.2
     | none => false)
  | none => false

/-- `DynamicCrudHandler.handleCreate`. -/
def handleCreate (config : EntityConfig) (oracles : CrudOracles)
    (entities : List (String × String)) : HandlerOut :=
  match config.operations.create with
  | none =>
    (.ok { success := false, operation := "CREATE", table := config.table,
           details := "Create operation not configured",
           error := some ("Create operation not available") }, [])
  | some createOp =>
    let data := extractEntityData config oracles.extractLLM entities
    let validation := validateEntityData config data .CREATE
    if !validation.valid then
      (.ok { success := false, operation := "CREATE", table := config.table,
             details := validation.error.getD "",
             error := validation.error }, [])
    else
      match executeOperation oracles.store createOp data with
      | (.ok result, calls) =>
        (.ok { success := !containsSubstr result ("❌"), operation := "CREATE",
               table := config.table, details := result, data := some data },
         calls)
      | (.error e, calls) => (.error e, calls)

/-- `DynamicCrudHandler.handleRead`.  The identifier must be a truthy value
found among the hints under the configured identifier field. -/
def handleRead (config : EntityConfig) (oracles : CrudOracles)
    (entities : List (String × String)) : HandlerOut :=
  match config.operations.read with
  | none =>
    (.ok { success := false, operation := "READ", table := config.table,
           details := "Read operation not configured",
           error := some ("Read operation not available") }, [])
  | some readOp =>
    match (entities.find? (fun e => e.1 = config.identifierField)).map (·.2) with
    | some identifier =>
      if identifier = "" then
        (.ok { success := false, operation := "READ", table := config.table,
               details := config.identifierField ++ " is required",
               error := some ("Missing " ++ config.identifierField) }, [])
      else
        match executeOperation oracles.store readOp
            [(config.identifierField, .jstr identifier)] with
        | (.ok result, calls) =>
          (.ok { success := !containsSubstr result ("❌"), operation := "READ",
                 table := config.table, details := result }, calls)
        | (.error e, calls) => (.error e, calls)
    | none =>
      (.ok { success := false, operation := "READ", table := config.table,
             details := config.identifierField ++ " is required",
             error := some ("Missing " ++ config.identifierField) }, [])

/-- `DynamicCrudHandler.handleUpdate`. -/
def handleUpdate (config : EntityConfig) (oracles : CrudOracles)
    (entities : List (String × String)) : HandlerOut :=
  match config.operations.update with
  | none =>
    (.ok { success := false, operation := "UPDATE", table := config.table,
           details := "Update operation not configured",
           error := some ("Update operation not available") }, [])
  | some updateOp =>
    let data := extractEntityData config oracles.extractLLM entities
    match (entities.find? (fun e => e.1 = config.identifierField)).map (·.2) with
    | some identifier =>
      if identifier = "" then
        (.ok { success := false, operation := "UPDATE", table := config.table,
               details := config.identifierField ++ " is required",
               error := some ("Missing " ++ config.identifierField) }, [])
      else
        let data2 := aSet data config.identifierField (.jstr identifier)
        match executeOperation oracles.store updateOp data2 with
        | (.ok result, calls) =>
          (.ok { success := !containsSubstr result ("❌"), operation := "UPDATE",
                 table := config.table, details := result,
                 data := some data2 }, calls)
        | (.error e, calls) => (.error e, calls)
    | none =>
      (.ok { success := false, operation := "UPDATE", table := config.table,
             details := config.identifierField ++ " is required",
             error := some ("Missing " ++ config.identifierField) }, [])

/-- `DynamicCrudHandler.handleDelete`. -/
def handleDelete (config : EntityConfig) (oracles : CrudOracles)
    (entities : List (String × String)) : HandlerOut :=
  match config.operations.delete with
  | none =>
    (.ok { success := false, operation := "DELETE", table := config.table,
           details := "Delete operation not configured",
           error := some ("Delete operation not available") }, [])
  | some deleteOp =>
    match (entities.find? (fun e => e.1 = config.identifierField)).map (·.2) with
    | some identifier =>
      if identifier = "" then
        (.ok { success := false, operation := "DELETE", table := config.table,
               details := config.identifierField ++ " is required",
               error := some ("Missing " ++ config.identifierField) }, [])
      else
        match executeOperation oracles.store deleteOp
            [(config.identifierField, .jstr identifier)] with
        | (.ok result, calls) =>
          (.ok { success := !containsSubstr result ("❌"), operation := "DELETE",
                 table := config.table, details := result }, calls)
        | (.error e, calls) => (.error e, calls)
    | none =>
      (.ok { success := false, operation := "DELETE", table := config.table,
             details := config.identifierField ++ " is required",
             error := some ("Missing " ++ config.identifierField) }, [])

/-- `DynamicCrudHandler.handleList`: invokes the list operation with no
arguments; on a resolved call the result is always marked successful. -/
def handleList (config : EntityConfig) (oracles : CrudOracles) : HandlerOut :=
  match config.operations.list with
  | none =>
    (.ok { success := false, operation := "LIST", table := config.table,
           details := "List operation not configured",
           error := some ("List operation not available") }, [])
  | some listOp =>
    match executeOperation oracles.store listOp [] with
    | (.ok result, calls) =>
      (.ok { success := true, operation := "LIST", table := config.table,
             details := result }, calls)
    | (.error e, calls) => (.error e, calls)

/-- `DynamicCrudHandler.handleCrudOperation`: registry lookup (a missing
entity type yields the `not configured` envelope), branch on the operation,
and the surrounding `try/catch` that converts any thrown error into a failed
`CrudResult` — the dispatcher boundary never throws.  The source's `default`
branch for an unsupported operation is unreachable with the five-valued
operation union and is omitted. -/
def handleCrudOperation (reg : Registry) (oracles : CrudOracles)
    (operation : CrudOp) (entityType : String)
    (entities : List (String × String)) : CrudResult × List StoreCall :=
  let inner : HandlerOut :=
    match aFind reg entityType with
    | none =>
      (.ok { success := false, operation := operation.opName,
             table := entityType,
             details := "Entity type '" ++ entityType ++ "' not configured",
             error := some ("Unknown entity type: " ++ entityType) }, [])
    | some config =>
      match operation with
      | .CREATE => handleCreate config oracles entities
      | .READ => handleRead config oracles entities
      | .UPDATE => handleUpdate config oracles entities
      | .DELETE => handleDelete config oracles entities
      | .LIST => handleList config oracles
  match inner with
  | (.ok r, calls) => (r, calls)
  | (.error e, calls) =>
    ({ success := false, operation := operation.opName, table := entityType,
       details := "Operation failed due to error", error := some e }, calls)

-- ============= EXECUTOR HELPERS (complex-executor.ts) =============

/-- Leftmost match of `/\(([^)]+)\)/` (the per-line email extraction of
`executeSingleOperation`): the capture is the nonempty run of non-`')'`
characters after an `'('` that is closed by a `')'`; when the pattern cannot
complete at an opening position the scan resumes at the next character. -/
def firstParen : List Char → Option String
  | [] => none
  | '(' :: rest =>
    let t := rest.takeWhile (fun c => c != ')')
    if t.isEmpty then firstParen rest
    else if (rest.drop t.length).isEmpty then firstParen rest
    else some (String.mk t)
  | _ :: rest => firstParen rest

/-- The lazy capture of the name regex (dash, space, lazy group, space,
opening paren) after a `"- "` has been consumed:
the shortest nonempty character run followed by `" ("`. -/
def lazyCaptureGo (acc : List Char) : List Char → Option (List Char)
  | [] => none
  | ' ' :: '(' :: _ => some acc.reverse
  | c :: rest => lazyCaptureGo (c :: acc) rest

/-- Start of the lazy capture: the captured group is nonempty, so one
character is always consumed before looking for the `" ("` terminator. -/
def lazyCapture : List Char → Option (List Char)
  | [] => none
  | c :: rest => lazyCaptureGo [c] rest

/-- Scan loop of the name regex.  `fuel` bounds the scan positions (each
step moves the start one character forward); the wrapper passes the list
length, which always suffices. -/
def nameMatchAux : Nat → List Char → Option String
  | _, [] => none
  | 0, _ => none
  | fuel + 1, '-' :: ' ' :: rest =>
    (match lazyCapture rest with
     | some t => some (String.mk t)
     | none => nameMatchAux fuel (' ' :: rest))
  | fuel + 1, _ :: rest => nameMatchAux fuel rest

/-- Leftmost match of the name regex — dash, space, lazy capture `(.+?)`,
space, `\(` — (the per-line name extraction): find a
`"- "`, then the shortest nonempty capture followed by `" ("`; if the
pattern cannot complete there, the scan resumes one character later. -/
def nameMatch (cs : List Char) : Option String := nameMatchAux cs.length cs

/-- Leftmost match of `/email:\s*([^\s,]+)/` (the created-identifier
extraction for `CREATE` results): after a literal `"email:"`, skip
whitespace and capture the maximal nonempty run of non-whitespace,
non-comma characters.  `"email:"` has no self-overlap, so a failed
completion resumes after the literal. -/
def emailColonMatch : List Char → Option String
  | [] => none
  | 'e' :: 'm' :: 'a' :: 'i' :: 'l' :: ':' :: rest =>
    let afterWs := rest.dropWhile isJsWhitespace
    let tok := afterWs.takeWhile (fun c => !isJsWhitespace c && c != ',')
    if tok.isEmpty then emailColonMatch rest else some (String.mk tok)
  | _ :: rest => emailColonMatch rest

/-- One parsed line of a list result: `{ email, name, _raw }` per
`executeSingleOperation`'s item mapping (a failed regex gives `null`). -/
def parseItemLine (line : String) : Item :=
  { email := firstParen line.data
    name := nameMatch line.data
    raw := line }

/-- The list-result item extraction of `executeSingleOperation`: split the
details on newlines, keep the lines whose trimmed form starts with `"-"`,
and parse each kept line. -/
def parseListItems (details : String) : List Item :=
  let lines := details.splitOn "\n"
  let itemLines := lines.filter (fun line => line.trim.startsWith ("-"))
  itemLines.map parseItemLine

/-- Lexicographic order on character lists by code point. -/
def listLt : List Char → List Char → Bool
  | [], [] => false
  | [], _ :: _ => true
  | _ :: _, [] => false
  | a :: as, b :: bs =>
    if a.toNat < b.toNat then true
    else if b.toNat < a.toNat then false
    else listLt as bs

/-- JS `<` on the values reachable in a sort comparison.  Numbers compare
numerically and strings lexicographically by code point (this system's
strings are ASCII, where JS UTF-16 code-unit order agrees); a mixed or
boolean/null comparison is `false`, as JS `<` is on non-coercible pairs. -/
def jsLt : JValue → JValue → Bool
  | .jnum a, .jnum b => decide (a < b)
  | .jstr a, .jstr b => listLt a.data b.data
  | _, _ => false

/-- The comparator of `ComplexExecutor.sortItems`: strict-equal values give
`0`; a `null`/`undefined` left value sorts after anything, a `null`/
`undefined` right value before anything (both regardless of direction); only
the remaining comparison is direction-sensitive.  Both values are non-null
in the final branch, so the `getD` defaults there are never used. -/
def cmpItems (sort : SortSpec) (a b : Item) : Int :=
  let aVal := itemGet a sort.sortBy
  let bVal := itemGet b sort.sortBy
  if aVal = bVal then 0
  else if aVal = none ∨ aVal = some .jnull then 1
  else if bVal = none ∨ bVal = some .jnull then -1
  else
    let comparison : Int := if jsLt (aVal.getD .jnull) (bVal.getD .jnull) then -1 else 1
    if sort.order = .asc then comparison else -comparison

/-- Stable insertion with respect to a strict "comes before" test: the new
element is placed before the first element it strictly precedes, hence after
every earlier element that compares equal. -/
def sInsert (lt : Item → Item → Bool) (x : Item) : List Item → List Item
  | [] => [x]
  | y :: ys => if lt x y then x :: y :: ys else y :: sInsert lt x ys

/-- `ComplexExecutor.sortItems`: `[...items].sort(comparator)`.  ES2019
`Array.prototype.sort` is stable; it is modelled as a stable insertion sort
with "`x` comes before `y`" iff the comparator is negative, which is the
unique stable sort for a consistent comparator. -/
def sortItems (items : List Item) (sort : SortSpec) : List Item :=
  items.foldl (fun acc x => sInsert (fun a b => decide (cmpItems sort a b < 0)) x acc) []

/-- JS `items.slice(0, endIdx)` (a negative end counts from the end). -/
def jsSlice (items : List Item) (endIdx : Int) : List Item :=
  if 0 ≤ endIdx then items.take endIdx.toNat
  else items.take (items.length - (-endIdx).toNat)

/-- Lines 690-699 of `executeSingleOperation`: sort when `sort` is present
and the list is nonempty, then truncate when `limit` is truthy (nonzero)
and exceeded, recomputing the count only in that case. -/
def applySortLimit (sort : Option SortSpec) (limit : Option Int)
    (items0 : List Item) : List Item × Nat :=
  let count0 := items0.length
  let items1 := match sort with
    | some s => if items0.length > 0 then sortItems items0 s else items0
    | none => items0
  match limit with
  | some l =>
    if l != 0 && decide ((items1.length : Int) > l) then
      let truncated := jsSlice items1 l
      (truncated, truncated.length)
    else (items1, count0)
  | none => (items1, count0)

/-- Line 701: `ids = items.map(item => item.email || "").filter(Boolean)`. -/
def listIds (items : List Item) : List String :=
  (items.map (fun it => it.email.getD "")).filter (fun s => s != "")

-- ============= SINGLE OPERATION (complex-executor.ts lines 632-723) =============

/-- One invocation of the Dispatcher boundary
(`dynamicCrudHandler.handleCrudOperation`) as issued by
`executeSingleOperation`. -/
structure DispatchCall where
  operation : CrudOp
  entityType : String
  input : String
  entities : List (String × String)
deriving DecidableEq, Repr

/-- The executor's environment: the response of the Dispatcher boundary to
the `k`-th call of the request.  A `.error` response models a rejected
promise (a thrown exception) at the only effectful point of a step body;
the index lets successive calls observe an evolving store. -/
structure ExecEnv where
  respond : Nat → DispatchCall → Except String CrudResult

/-- Lines 633-658 of `executeSingleOperation`: the input string joins
`key: value` parts for the data entries plus an `identifier:` part when the
identifier is truthy, falling back to `"<OP> <entityType>"` when empty; the
hint entities are the data entries plus, for a truthy identifier, one entry
under the configured identifier field (default `"email"`). -/
def buildDispatchCall (reg : Registry) (step : ExecutionPlanStep) : DispatchCall :=
  let operation := step.operation.toUpper
  let dataParts : List String :=
    match step.data with
    | some d => d.map (fun kv => kv.1 ++ ": " ++ jsToString kv.2)
    | none => []
  let idParts : List String :=
    match step.identifier with
    | some id => if id != "" then ["identifier: " ++ id] else []
    | none => []
  let joined := String.intercalate ", " (dataParts ++ idParts)
  let input := if joined = "" then operation.opName ++ " " ++ step.entityType
               else joined
  let dataEntities : List (String × String) :=
    match step.data with
    | some d => d.map (fun kv => (kv.1, jsToString kv.2))
    | none => []
  let idEntities : List (String × String) :=
    match step.identifier with
    | some id =>
      if id != "" then
        let identifierField := match aFind reg step.entityType with
          | some config =>
            if config.identifierField != "" then config.identifierField
            else "email"
          | none => "email"
        [(identifierField, id)]
      else []
    | none => []
  { operation := operation, entityType := step.entityType, input := input,
    entities := dataEntities ++ idEntities }

/-- Lines 668-722 of `executeSingleOperation`: derive `items`/`count`/`ids`
from the Dispatcher result — parsed, sorted and limited items for a
successful `LIST`; count `1` and a scraped identifier for a successful
`CREATE`; count `1` for a successful `DELETE`; empty defaults otherwise. -/
def postProcessSingle (step : ExecutionPlanStep) (crudResult : CrudResult) :
    StepResult :=
  let operation := step.operation.toUpper
  let (items, count, ids) : List Item × Nat × List String :=
    if operation = .LIST ∧ crudResult.success then
      let items0 := parseListItems crudResult.details
      let (items2, count2) := applySortLimit step.sort step.limit items0
      (items2, count2, listIds items2)
    else if operation = .CREATE ∧ crudResult.success then
      let ids := match emailColonMatch crudResult.details.data with
        | some e => [e]
        | none => []
      ([], 1, ids)
    else if operation = .DELETE ∧ crudResult.success then ([], 1, [])
    else ([], 0, [])
  { stepId := step.id, success := crudResult.success,
    operation := step.operation, entityType := step.entityType,
    items := some items, count := some count, ids := some ids,
    details := some crudResult.details, error := crudResult.error }

/-- `ComplexExecutor.executeSingleOperation`: build the call, consult the
Dispatcher boundary, post-process.  The issued call is returned even when
the environment throws. -/
def executeSingleOperation (env : ExecEnv) (reg : Registry)
    (step : ExecutionPlanStep) (k : Nat) :
    Except String StepResult × List DispatchCall × Nat :=
  match env.respond k (buildDispatchCall reg step) with
  | .error e => (.error e, [buildDispatchCall reg step], k + 1)
  | .ok crudResult =>
    (.ok (postProcessSingle step crudResult), [buildDispatchCall reg step], k + 1)

-- ============= AGGREGATION, REPEAT AND FAN-OUT (complex-executor.ts lines 728-803) =============

/-- `results.every(r => r.success)` of the aggregation steps. -/
def aggSuccess (results : List StepResult) : Bool := results.all (·.success)

/-- `results.reduce((sum, r) => sum + (r.count || 0), 0)`. -/
def aggCount (results : List StepResult) : Nat :=
  results.foldl (fun sum r => sum + r.count.getD 0) 0

/-- `results.flatMap(r => r.ids || [])`. -/
def aggIds (results : List StepResult) : List String :=
  (results.map (fun r => r.ids.getD [])).flatten

/-- The loop of `executeRepeated`: the same step is executed `n` more times,
threading the call counter; a thrown call aborts the loop. -/
def runRepeat (env : ExecEnv) (reg : Registry) (step : ExecutionPlanStep) :
    Nat → Nat → Except String (List StepResult) × List DispatchCall × Nat
  | 0, k => (.ok [], [], k)
  | n + 1, k =>
    match executeSingleOperation env reg step k with
    | (.error e, calls, k1) => (.error e, calls, k1)
    | (.ok r, calls, k1) =>
      match runRepeat env reg step n k1 with
      | (.error e, calls2, k2) => (.error e, calls ++ calls2, k2)
      | (.ok rs, calls2, k2) => (.ok (r :: rs), calls ++ calls2, k2)

/-- `ComplexExecutor.executeRepeated`: run the identical step `times` times
and aggregate success (logical AND), count (sum) and ids (concatenation). -/
def executeRepeated (env : ExecEnv) (reg : Registry) (step : ExecutionPlanStep)
    (times : Int) (k : Nat) :
    Except String StepResult × List DispatchCall × Nat :=
  match runRepeat env reg step times.toNat k with
  | (.error e, calls, k1) => (.error e, calls, k1)
  | (.ok results, calls, k1) =>
    (.ok { stepId := step.id, success := aggSuccess results,
           operation := step.operation, entityType := step.entityType,
           count := some (aggCount results), ids := some (aggIds results),
           details := some ("Repeated " ++ toString times ++ " times, " ++
             toString (aggCount results) ++ " total operations"),
           meta := some (.repeatedTag times) }, calls, k1)

-- ============= DATA TEMPLATES (complex-executor.ts lines 861-910) =============

/-- The substitution value `String(item[field] ?? "")` of a placeholder. -/
def placeholderValue (item : Item) (field : String) : String :=
  match itemGet item field with
  | some .jnull => ""
  | some v => jsToString v
  | none => ""

/-- Attempt to match the placeholder regex — `\{\{item\.`, capture `[^}]+`,
`\}\}` — at the head of the character list, returning the captured field
name and the remaining characters. -/
def tryItemPH : List Char → Option (String × List Char)
  | '{' :: '{' :: 'i' :: 't' :: 'e' :: 'm' :: '.' :: rest =>
    let field := rest.takeWhile (fun c => c != '}')
    if field.isEmpty then none
    else
      match rest.drop field.length with
      | '}' :: '}' :: tail => some (String.mk field, tail)
      | _ => none
  | _ => none

/-- Global replacement pass for the `item` placeholder regex.  `fuel` bounds
the number of scan positions; the wrapper passes the list length, which
always suffices because every step consumes at least one character (a match
consumes at least nine). -/
def substItemPHAux (item : Item) : Nat → List Char → List Char
  | _, [] => []
  | 0, cs => cs
  | fuel + 1, c :: rest =>
    match tryItemPH (c :: rest) with
    | some (field, tail) =>
      (placeholderValue item field).data ++ substItemPHAux item fuel tail
    | none => c :: substItemPHAux item fuel rest

/-- `ComplexExecutor.ensureEmailDomain`: keep an email already on the target
domain, rewrite the domain after the first `'@'` when it is at a positive
index, otherwise append the target domain. -/
def ensureEmailDomain (email : String) (domain : String) : String :=
  if email = "" then "user@" ++ domain
  else
    let targetDomain := "@" ++ domain
    if email.endsWith targetDomain then email
    else
      let atIndex := (email.data.takeWhile (fun c => c != '@')).length
      if atIndex < email.data.length ∧ atIndex > 0 then
        String.mk (email.data.take atIndex) ++ targetDomain
      else email ++ targetDomain

/-- The literal head of the transform regex: `{{ensureEmailDomain`. -/
def eedPat : List Char := '{' :: '{' :: "ensureEmailDomain".data

/-- Attempt to match the transform regex — `\{\{ensureEmailDomain\s+item\.`,
capture `[^\s]+`, `\s+"`, capture `[^"]+`, `"\}\}` — at the head of the
character list, returning the field, the domain and the remaining
characters.  The two greedy character classes cannot backtrack usefully
(each is delimited by a character it excludes), so maximal runs are exact. -/
def tryEED (cs : List Char) : Option (String × String × List Char) :=
  if listStartsWith cs eedPat then
    let r1 := cs.drop eedPat.length
    let ws1 := r1.takeWhile isJsWhitespace
    if ws1.isEmpty then none
    else
      let r2 := r1.drop ws1.length
      if listStartsWith r2 ("item.".data) then
        let r3 := r2.drop 5
        let field := r3.takeWhile (fun c => !isJsWhitespace c)
        if field.isEmpty then none
        else
          let r4 := r3.drop field.length
          let ws2 := r4.takeWhile isJsWhitespace
          if ws2.isEmpty then none
          else
            match r4.drop ws2.length with
            | '"' :: r5 =>
              let domain := r5.takeWhile (fun c => c != '"')
              if domain.isEmpty then none
              else
                match r5.drop domain.length with
                | '"' :: '}' :: '}' :: tail =>
                  some (String.mk field, String.mk domain, tail)
                | _ => none
            | _ => none
      else none
  else none

/-- Global replacement pass for the transform regex, fuelled like
`substItemPHAux` (a match consumes at least twenty-five characters). -/
def substEEDAux (item : Item) : Nat → List Char → List Char
  | _, [] => []
  | 0, cs => cs
  | fuel + 1, c :: rest =>
    match tryEED (c :: rest) with
    | some (field, domain, tail) =>
      (ensureEmailDomain (placeholderValue item field) domain).data ++
        substEEDAux item fuel tail
    | none => c :: substEEDAux item fuel rest

/-- `ComplexExecutor.applyDataTemplate`: string template values get the
placeholder pass then the transform pass; other values are copied. -/
def applyDataTemplate (template : List (String × JValue)) (item : Item) :
    List (String × JValue) :=
  template.foldl (fun result kv =>
    match kv.2 with
    | .jstr s =>
      let pass1 := substItemPHAux item s.data.length s.data
      let pass2 := substEEDAux item pass1.length pass1
      aSet result kv.1 (.jstr (String.mk pass2))
    | v => aSet result kv.1 v) []

-- ============= FAN-OUT (complex-executor.ts lines 755-803) =============

/-- Lines 774-783: the per-item step — templated (or static) data, and the
identifier taken from the item's `email` property when truthy, else the
step's own identifier. -/
def mkItemStep (step : ExecutionPlanStep) (item : Item) : ExecutionPlanStep :=
  { step with
    data := match step.dataTemplate with
      | some tpl => some (applyDataTemplate tpl item)
      | none => step.data
    identifier := match item.email with
      | some e => if e != "" then some e else step.identifier
      | none => step.identifier }

/-- The per-item loop of `executeOnPriorStepItems`, threading the call
counter; a thrown call aborts the loop. -/
def runItems (env : ExecEnv) (reg : Registry) (step : ExecutionPlanStep) :
    List Item → Nat → Except String (List StepResult) × List DispatchCall × Nat
  | [], k => (.ok [], [], k)
  | item :: rest, k =>
    match executeSingleOperation env reg (mkItemStep step item) k with
    | (.error e, calls, k1) => (.error e, calls, k1)
    | (.ok r, calls, k1) =>
      match runItems env reg step rest k1 with
      | (.error e, calls2, k2) => (.error e, calls ++ calls2, k2)
      | (.ok rs, calls2, k2) => (.ok (r :: rs), calls ++ calls2, k2)

/-- The trivial result of a fan-out step whose referenced items are missing
or empty. -/
def noItemsResult (step : ExecutionPlanStep) : StepResult :=
  { stepId := step.id, success := true, operation := step.operation,
    entityType := step.entityType, count := some 0,
    details := some ("No items from prior step to process") }

/-- The guard of `executeOnPriorStepItems`
(`!priorStep || !priorStep.items || priorStep.items.length === 0` treats a
missing referenced result or missing items as having nothing to process):
the referenced step's items, when the reference resolves. -/
def priorItemsOf (step : ExecutionPlanStep)
    (priorResults : List (String × StepResult)) : Option (List Item) :=
  match step.fromStep with
  | some fs =>
    (match aFind priorResults fs with
     | some priorStep => priorStep.items
     | none => none)
  | none => none

/-- `ComplexExecutor.executeOnPriorStepItems`: resolve the referenced step's
items (a missing step, missing items or an empty item list resolve
trivially), execute the per-item steps in order, and aggregate success
(logical AND), count (sum) and ids (concatenation). -/
def executeOnPriorStepItems (env : ExecEnv) (reg : Registry)
    (step : ExecutionPlanStep) (priorResults : List (String × StepResult))
    (k : Nat) : Except String StepResult × List DispatchCall × Nat :=
  match priorItemsOf step priorResults with
  | none => (.ok (noItemsResult step), [], k)
  | some [] => (.ok (noItemsResult step), [], k)
  | some items =>
    match runItems env reg step items k with
    | (.error e, calls, k1) => (.error e, calls, k1)
    | (.ok results, calls, k1) =>
      (.ok { stepId := step.id, success := aggSuccess results,
             operation := step.operation, entityType := step.entityType,
             count := some (aggCount results), ids := some (aggIds results),
             details := some ("Processed " ++ toString items.length ++
               " items from " ++ step.fromStep.getD ""),
             meta := some (.processedItemsTag items.length) }, calls, k1)

-- ============= STEP STATE MACHINE (complex-executor.ts lines 558-625) =============

/-- The skipped-step result of `executeDynamicOperation` (condition false). -/
def skippedResult (step : ExecutionPlanStep) : StepResult :=
  { stepId := step.id, success := true, operation := step.operation,
    entityType := step.entityType, count := some 0,
    meta := some .skippedTag, details := some ("Skipped due to condition") }

/-- JS truthiness of an optional string. -/
def jsStrOptTruthy : Option String → Bool
  | some s => s != ""
  | none => false

/-- The fall-through of `executeDynamicOperation` after the condition gate:
a truthy `fromStep` routes to the fan-out, a `repeat` greater than one to
the repetition loop, and anything else to a single operation. -/
def executeAfterCondition (env : ExecEnv) (reg : Registry)
    (step : ExecutionPlanStep) (priorResults : List (String × StepResult))
    (k : Nat) : Except String StepResult × List DispatchCall × Nat :=
  if jsStrOptTruthy step.fromStep then
    executeOnPriorStepItems env reg step priorResults k
  else
    match step.repeatN with
    | some r =>
      if r > 1 then executeRepeated env reg step r k
      else executeSingleOperation env reg step k
    | none => executeSingleOperation env reg step k

/-- `ComplexExecutor.executeDynamicOperation`: a present condition that
evaluates false resolves the step as skipped without consulting the
Dispatcher (the early return of lines 597-611); otherwise execution falls
through to `executeAfterCondition`. -/
def executeDynamicOperation (env : ExecEnv) (reg : Registry)
    (step : ExecutionPlanStep) (priorResults : List (String × StepResult))
    (k : Nat) : Except String StepResult × List DispatchCall × Nat :=
  match step.condition with
  | some condition =>
    if !evaluateCondition condition priorResults then
      (.ok (skippedResult step), [], k)
    else executeAfterCondition env reg step priorResults k
  | none => executeAfterCondition env reg step priorResults k

/-- The per-step `catch` of `executePlan`: a thrown error is recorded as a
failed result carrying only the step identity and the message. -/
def catchStepResult (step : ExecutionPlanStep) (errorMessage : String) :
    StepResult :=
  { stepId := step.id, success := false, operation := step.operation,
    entityType := step.entityType, error := some errorMessage }

/-- The loop of `executePlan`: each step is executed against the result map
accumulated so far; its result (normal or caught) is appended to both the
output list and the result map, and execution always continues with the
remaining steps. -/
def executePlanAux (env : ExecEnv) (reg : Registry) :
    List ExecutionPlanStep → List (String × StepResult) → Nat →
    List StepResult
  | [], _, _ => []
  | step :: rest, resultMap, k =>
    match executeDynamicOperation env reg step resultMap k with
    | (.ok stepResult, _, k1) =>
      stepResult ::
        executePlanAux env reg rest (aSet resultMap step.id stepResult) k1
    | (.error e, _, k1) =>
      let stepResult := catchStepResult step e
      stepResult ::
        executePlanAux env reg rest (aSet resultMap step.id stepResult) k1

/-- `ComplexExecutor.executePlan`: execute the steps sequentially from an
empty result map.  The function is total: the per-step `try/catch` converts
every thrown error into that step's failed result. -/
def executePlan (env : ExecEnv) (reg : Registry) (plan : ExecutionPlan) :
    List StepResult :=
  executePlanAux env reg plan.steps [] 0

-- ============= JSON (for ComplexExecutor.parseJSON / createExecutionPlan) =============

/-- A parsed JSON value.  Numbers are stored by their integer part: the
parser accepts the full JSON number grammar (so acceptance is faithful),
but plan handling never reads a fractional value, so the value of a
non-integer literal is approximated by its integer part. -/
inductive JsonVal where
  | jnull
  | jbool (b : Bool)
  | jnum (n : Int)
  | jstr (s : String)
  | jarr (elems : List JsonVal)
  | jobj (fields : List (String × JsonVal))
deriving Repr

/-- The whitespace accepted between JSON tokens by `JSON.parse`. -/
def jsonWs (c : Char) : Bool := c = ' ' || c = '\t' || c = '\n' || c = '\r'

/-- Hexadecimal digit value. -/
def hexVal (c : Char) : Option Nat :=
  if '0' ≤ c ∧ c ≤ '9' then some (c.toNat - '0'.toNat)
  else if 'a' ≤ c ∧ c ≤ 'f' then some (c.toNat - 'a'.toNat + 10)
  else if 'A' ≤ c ∧ c ≤ 'F' then some (c.toNat - 'A'.toNat + 10)
  else none

/-- Body of a JSON string literal after the opening quote: plain characters
(control characters are rejected), the short escapes, and `\uXXXX` (a
surrogate code unit, invalid as a scalar value, degrades to `NUL`; no string
this development evaluates contains one). -/
def parseJsonStringAux (item : Unit) : Nat → List Char → List Char →
    Option (String × List Char)
  | 0, _, _ => none
  | _ + 1, _, [] => none
  | fuel + 1, acc, c :: rest =>
    if c = '"' then some (String.mk acc.reverse, rest)
    else if c = '\\' then
      match rest with
      | [] => none
      | e :: rest2 =>
        if e = '"' then parseJsonStringAux item fuel ('"' :: acc) rest2
        else if e = '\\' then parseJsonStringAux item fuel ('\\' :: acc) rest2
        else if e = '/' then parseJsonStringAux item fuel ('/' :: acc) rest2
        else if e = 'b' then parseJsonStringAux item fuel ('\x08' :: acc) rest2
        else if e = 'f' then parseJsonStringAux item fuel ('\x0c' :: acc) rest2
        else if e = 'n' then parseJsonStringAux item fuel ('\n' :: acc) rest2
        else if e = 'r' then parseJsonStringAux item fuel ('\r' :: acc) rest2
        else if e = 't' then parseJsonStringAux item fuel ('\t' :: acc) rest2
        else if e = 'u' then
          match rest2 with
          | h1 :: h2 :: h3 :: h4 :: rest3 =>
            match hexVal h1, hexVal h2, hexVal h3, hexVal h4 with
            | some a, some b, some cc, some d =>
              parseJsonStringAux item fuel
                (Char.ofNat (((a * 16 + b) * 16 + cc) * 16 + d) :: acc) rest3
            | _, _, _, _ => none
          | _ => none
        else none
    else if c.toNat < 32 then none
    else parseJsonStringAux item fuel (c :: acc) rest

/-- Digit run to a natural number. -/
def digitsToNat (ds : List Char) : Nat :=
  ds.foldl (fun n c => n * 10 + (c.toNat - '0'.toNat)) 0

/-- A JSON number literal: optional minus, an integer part with no leading
zero, an optional fraction and exponent (accepted; the value keeps the
signed integer part, see `JsonVal`). -/
def parseJsonNumber (cs : List Char) : Option (Int × List Char) :=
  let (neg, cs1) : Bool × List Char :=
    match cs with
    | '-' :: rest => (true, rest)
    | _ => (false, cs)
  let intDigits := cs1.takeWhile (fun c => c.isDigit)
  if intDigits.isEmpty then none
  else if intDigits.length > 1 ∧ intDigits.headD '0' = '0' then none
  else
    let r1 := cs1.drop intDigits.length
    let r2? : Option (List Char) :=
      match r1 with
      | '.' :: fr =>
        let fracDigits := fr.takeWhile (fun c => c.isDigit)
        if fracDigits.isEmpty then none else some (fr.drop fracDigits.length)
      | _ => some r1
    match r2? with
    | none => none
    | some r2 =>
      let r3? : Option (List Char) :=
        match r2 with
        | 'e' :: ex => some ex
        | 'E' :: ex => some ex
        | _ => none
      match r3? with
      | none =>
        some (if neg then -(digitsToNat intDigits : Int) else (digitsToNat intDigits : Int), r2)
      | some ex =>
        let ex1 := match ex with
          | '+' :: t => t
          | '-' :: t => t
          | t => t
        let expDigits := ex1.takeWhile (fun c => c.isDigit)
        if expDigits.isEmpty then none
        else some (if neg then -(digitsToNat intDigits : Int) else (digitsToNat intDigits : Int),
                   ex1.drop expDigits.length)

mutual

/-- A JSON value with surrounding leading whitespace.  `fuel` bounds the
number of parser steps; the top-level wrapper passes twice the input length
plus a constant, which always suffices because every two nested calls
consume at least one character. -/
def parseJsonValue : Nat → List Char → Option (JsonVal × List Char)
  | 0, _ => none
  | fuel + 1, cs0 =>
    let cs := cs0.dropWhile jsonWs
    match cs with
    | 'n' :: 'u' :: 'l' :: 'l' :: rest => some (.jnull, rest)
    | 't' :: 'r' :: 'u' :: 'e' :: rest => some (.jbool true, rest)
    | 'f' :: 'a' :: 'l' :: 's' :: 'e' :: rest => some (.jbool false, rest)
    | '"' :: rest =>
      match parseJsonStringAux () rest.length [] rest with
      | some (s, r) => some (.jstr s, r)
      | none => none
    | '[' :: rest =>
      (match (rest.dropWhile jsonWs) with
       | ']' :: r2 => some (.jarr [], r2)
       | _ =>
         match parseJsonArrayItems fuel rest with
         | some (elems, r2) => some (.jarr elems, r2)
         | none => none)
    | '{' :: rest =>
      (match (rest.dropWhile jsonWs) with
       | '}' :: r2 => some (.jobj [], r2)
       | _ =>
         match parseJsonObjectItems fuel rest with
         | some (fields, r2) =>
           some (.jobj (fields.foldl (fun acc kv => aSet acc kv.1 kv.2) []), r2)
         | none => none)
    | _ =>
      match parseJsonNumber cs with
      | some (n, r) => some (.jnum n, r)
      | none => none

/-- One or more comma-separated array elements followed by `']'`. -/
def parseJsonArrayItems : Nat → List Char → Option (List JsonVal × List Char)
  | 0, _ => none
  | fuel + 1, cs =>
    match parseJsonValue fuel cs with
    | none => none
    | some (v, r1) =>
      match r1.dropWhile jsonWs with
      | ',' :: r2 =>
        (match parseJsonArrayItems fuel r2 with
         | some (vs, r3) => some (v :: vs, r3)
         | none => none)
      | ']' :: r2 => some ([v], r2)
      | _ => none

/-- One or more comma-separated `"key": value` members followed by `'}'`.
Duplicate keys follow `JSON.parse`: a later member overwrites. -/
def parseJsonObjectItems : Nat → List Char →
    Option (List (String × JsonVal) × List Char)
  | 0, _ => none
  | fuel + 1, cs =>
    match cs.dropWhile jsonWs with
    | '"' :: rest =>
      match parseJsonStringAux () rest.length [] rest with
      | none => none
      | some (key, r1) =>
        match r1.dropWhile jsonWs with
        | ':' :: r2 =>
          (match parseJsonValue fuel r2 with
           | none => none
           | some (v, r3) =>
             match r3.dropWhile jsonWs with
             | ',' :: r4 =>
               (match parseJsonObjectItems fuel r4 with
                | some (fields, r5) => some ((key, v) :: fields, r5)
                | none => none)
             | '}' :: r4 => some ([(key, v)], r4)
             | _ => none)
        | _ => none
    | _ => none

end

/-- `JSON.parse`: a single JSON value with optional surrounding whitespace
and nothing after it. -/
def jsonParse (s : String) : Option JsonVal :=
  match parseJsonValue (2 * s.data.length + 8) s.data with
  | some (v, rest) => if (rest.dropWhile jsonWs).isEmpty then some v else none
  | none => none

-- ============= PLAN GENERATION (complex-executor.ts lines 475-551, 936-949) =============

/-- `String.prototype.trim`: drop leading and trailing whitespace.  Modelled
on character lists (rather than through `String.trim`'s substring
positions) so that it evaluates by reduction. -/
def trimChars (cs : List Char) : List Char :=
  ((cs.dropWhile Char.isWhitespace).reverse.dropWhile Char.isWhitespace).reverse

/-- Global replacement of a literal pattern followed by an optional newline
with the empty string (one `String.prototype.replace(/pat\n?/g, "")` pass,
scanning left to right without revisiting emitted output).  `fuel` bounds
the scan positions; the wrapper passes the list length, which suffices
because every step consumes at least one character. -/
def stripPat (pat : List Char) : Nat → List Char → List Char
  | _, [] => []
  | 0, cs => cs
  | fuel + 1, s@(c :: rest) =>
    if listStartsWith s pat then
      match s.drop pat.length with
      | '\n' :: t => stripPat pat fuel t
      | t => stripPat pat fuel t
    else c :: stripPat pat fuel rest

/-- The span matched by `/\{[\s\S]*\}/`: from the first `'{'` to the last
`'}'`, provided that `'}'` comes after the `'{'`; `none` when the regex does
not match (the caller then keeps the string unchanged). -/
def braceSpan (cs : List Char) : Option (List Char) :=
  let pre := cs.takeWhile (fun c => c != '{')
  match cs.drop pre.length with
  | '{' :: tail =>
    (match (tail.reverse.dropWhile (fun c => c != '}')) with
     | [] => none
     | revSpan => some ('{' :: revSpan.reverse))
  | _ => none

/-- `ComplexExecutor.parseJSON`: trim, strip ```json fences then bare ```
fences, trim again, narrow to the first-`{`-to-last-`}` span when the
greedy brace regex matches, and `JSON.parse` the result (`none` models the
thrown `SyntaxError`). -/
def parseJSONresult (response : String) : Option JsonVal :=
  let cs0 := trimChars response.data
  let cs1 := stripPat ('`' :: '`' :: '`' :: "json".data) cs0.length cs0
  let cs2 := stripPat ('`' :: '`' :: '`' :: []) cs1.length cs1
  let cs3 := trimChars cs2
  let cleaned2 := match braceSpan cs3 with
    | some span => String.mk span
    | none => String.mk cs3
  jsonParse cleaned2

/-- JS truthiness of a parsed JSON value (`[]` and objects are truthy). -/
def jsonTruthy : JsonVal → Bool
  | .jnull => false
  | .jbool b => b
  | .jnum n => n != 0
  | .jstr s => s != ""
  | .jarr _ => true
  | .jobj _ => true

/-- JS property read on a parsed JSON value: objects look up the key, other
non-null values yield `undefined` (`none`).  Reads on `null` throw in JS;
the one such read (`plan.steps` on a null plan) is modelled explicitly at
its call site. -/
def jsGetProp (v : JsonVal) (key : String) : Option JsonVal :=
  match v with
  | .jobj fields => aFind fields key
  | _ => none

/-- JS truthiness of a property read (`undefined` is falsy). -/
def jsonOptTruthy : Option JsonVal → Bool
  | some v => jsonTruthy v
  | none => false

/-- The per-step validation loop of `createExecutionPlan`: every raw step
must have truthy `id`, `operation` and `entityType` properties.  A `null`
step makes the property read throw, which the surrounding `catch` also
turns into a plan-creation failure, hence `false` here. -/
def validatePlanSteps : List JsonVal → Bool
  | [] => true
  | s :: rest =>
    (match s with
     | .jnull => false
     | _ => jsonOptTruthy (jsGetProp s "id") &&
            jsonOptTruthy (jsGetProp s "operation") &&
            jsonOptTruthy (jsGetProp s "entityType")) &&
    validatePlanSteps rest

/-- `ComplexExecutor.createExecutionPlan` given the LLM collaborator's raw
response: parse via `parseJSON`, require a `steps` array, and validate every
step.  A step whose `entityType` is not among `availableEntities` only emits
a console warning, so the parameter does not influence the result (it is
consulted when building the planning prompt, which the response oracle
already accounts for).  The error strings stand for the source's wrapped
`Plan creation failed: ...` messages, whose exact engine-generated texts are
not modelled. -/
def createExecutionPlan (availableEntities : List String) (response : String) :
    Except String (List JsonVal) :=
  let _ := availableEntities
  match parseJSONresult response with
  | none => .error ("Plan creation failed: JSON parse error")
  | some .jnull => .error ("Plan creation failed: cannot read steps of null")
  | some plan =>
    match jsGetProp plan "steps" with
    | some (.jarr steps) =>
      if validatePlanSteps steps then .ok steps
      else .error ("Plan creation failed: Invalid step")
    | _ => .error ("Plan creation failed: Invalid plan structure: missing steps array")

/-- Balanced-brace scan: accumulate characters, tracking `{`/`}` depth, and
stop when the depth returns to zero. -/
def balancedSpanGo : Nat → List Char → List Char → Option (List Char)
  | _, _, [] => none
  | depth, acc, c :: rest =>
    if c = '{' then balancedSpanGo (depth + 1) (c :: acc) rest
    else if c = '}' then
      (if depth = 1 then some (c :: acc).reverse
       else balancedSpanGo (depth - 1) (c :: acc) rest)
    else balancedSpanGo depth (c :: acc) rest

/-- The first balanced `{...}` span of a string, as the specification's
words describe the extraction step ("extracting the first balanced `{...}`
span").  This is the refinement-side definition compared against the
source's greedy `braceSpan`. -/
def spec_firstBalancedBraceSpan (s : String) : Option String :=
  let cs := s.data
  let pre := cs.takeWhile (fun c => c != '{')
  match balancedSpanGo 0 [] (cs.drop pre.length) with
  | some span => some (String.mk span)
  | none => none

/-- The specification's description of when plan creation succeeds: after
stripping code fences, extract the first balanced brace span, parse it as
JSON, and require a steps array whose steps carry `id`/`operation`/
`entityType`.  Identical to the source pipeline except for the extraction
step. -/
def spec_planPipelineOk (response : String) : Bool :=
  let cs0 := trimChars response.data
  let cs1 := stripPat ('`' :: '`' :: '`' :: "json".data) cs0.length cs0
  let cs2 := stripPat ('`' :: '`' :: '`' :: []) cs1.length cs1
  let cs3 := trimChars cs2
  let cleaned2 := match spec_firstBalancedBraceSpan (String.mk cs3) with
    | some span => span
    | none => String.mk cs3
  match jsonParse cleaned2 with
  | none => false
  | some .jnull => false
  | some plan =>
    match jsGetProp plan "steps" with
    | some (.jarr steps) => validatePlanSteps steps
    | _ => false

-- ============= DIRECT RESPONDER FALLBACKS (intelligent-responder.ts) =============

/-- The aggregate store context handed to the responder (`dbContext`);
only the attributes the responder consults are modelled. -/
structure DbContext where
  userCount : Nat
  availableEntities : List String
deriving DecidableEq, Repr

/-- The last-resort template of `generateAdaptiveResponse` (line 145):
interpolates only the user's input, with the entity noun `users` written
into the text. -/
def adaptiveLastResortMessage (input : String) : String :=
  "I understand you said \"" ++ input ++
  "\". I can help you with database operations like creating, reading, updating, or deleting users. I can also handle complex multi-step workflows. What would you like to do?"

/-- `IntelligentResponder.generateAdaptiveResponse` at the message level:
the simpler plain-text LLM call's trimmed text, or on failure the fixed
last-resort template.  The database context feeds only the prompt (which
the oracle accounts for); the last-resort path ignores it. -/
def generateAdaptiveResponseMessage (adaptiveLLM : Except String String)
    (input : String) (dbContext : DbContext) : String :=
  let _ := dbContext
  match adaptiveLLM with
  | .ok message => message.trim
  | .error _ => adaptiveLastResortMessage input

/-- `IntelligentResponder.generateResponse` at the message level: the
primary call's parsed `message` on success (the oracle covers the LLM call
plus the JSON envelope parse), else the adaptive fallback. -/
def generateResponseMessage (primaryLLM : Except String String)
    (adaptiveLLM : Except String String) (input : String)
    (dbContext : DbContext) : String :=
  match primaryLLM with
  | .ok message => message
  | .error _ => generateAdaptiveResponseMessage adaptiveLLM input dbContext

/-- The absolute-last-resort template of `generateFallbackResponse`
(line 173): a fixed sentence with no interpolation at all. -/
def fallbackLastResortMessage : String :=
  "I heard you. I can help you with database operations and complex workflows. Could you tell me more about what you'd like to do?"

/-- `IntelligentResponder.generateFallbackResponse` at the message level. -/
def generateFallbackResponseMessage (llm : Except String String) : String :=
  match llm with
  | .ok response => response.trim
  | .error _ => fallbackLastResortMessage

-- ============= TEST ENVIRONMENTS AND FIXTURES =============

/-- A dispatcher environment built from the embedded `DynamicCrudHandler`:
the executor's `k`-th call is answered by `handleCrudOperation` under the
`k`-th collaborator oracles.  It never throws, because the handler's
boundary `try/catch` converts every failure into a result envelope. -/
def dispatcherEnv (reg : Registry) (oraclesAt : Nat → CrudOracles) : ExecEnv :=
  ⟨fun k call =>
    .ok (handleCrudOperation reg (oraclesAt k) call.operation call.entityType
          call.entities).1⟩

/-- An environment whose every dispatch succeeds with a fixed envelope. -/
def envAllOk : ExecEnv :=
  ⟨fun _ _ => .ok { success := true, operation := "LIST", table := "users",
                    details := "ok" }⟩

/-- An environment whose every dispatch rejects (throws). -/
def envBoom : ExecEnv := ⟨fun _ _ => .error ("boom")⟩

/-- Does the sort field of the item hold `null`/`undefined`?  These are the
values the comparator always sends to the back. -/
def nullishAt (sort : SortSpec) (it : Item) : Bool :=
  itemGet it sort.sortBy = none || itemGet it sort.sortBy = some .jnull

/-- Fixture: a step gated by a count condition on step `s1`. -/
def c1Step : ExecutionPlanStep :=
  { id := "s2", operation := .create, entityType := "users",
    data := some [("name", .jstr "TempUser"), ("email", .jstr "temp@demo.com")],
    condition := some { type := .count_gt, fromStep := "s1", value := some 3 } }

/-- Fixture: a recorded list result with two items. -/
def c1Prior : List (String × StepResult) :=
  [("s1", { stepId := "s1", success := true, operation := .list,
            entityType := "users", items := some [], count := some 2,
            ids := some [], details := some "ok" })]

/-- Fixture: a two-step plan for exercising the per-step catch. -/
def c2Plan : ExecutionPlan :=
  { steps := [
      { id := "a", operation := .list, entityType := "users" },
      { id := "b", operation := .create, entityType := "users",
        data := some [("name", .jstr "X"), ("email", .jstr "x@y.com")] }] }

/-- Fixture: a prior list result whose items drive a fan-out. -/
def c4Item1 : Item := { email := some "a@x.com", name := some "A", raw := "- A (a@x.com)" }

/-- Fixture: second fan-out item. -/
def c4Item2 : Item := { email := some "b@x.com", name := some "B", raw := "- B (b@x.com)" }

/-- Fixture: the prior-result map for the fan-out claim. -/
def c4Prior : List (String × StepResult) :=
  [("s1", { stepId := "s1", success := true, operation := .list,
            entityType := "users", items := some [c4Item1, c4Item2],
            count := some 2, ids := some ["a@x.com", "b@x.com"],
            details := some "ok" })]

/-- Fixture: a fan-out delete step over the items of `s1`. -/
def c4Step : ExecutionPlanStep :=
  { id := "s2", operation := .delete, entityType := "users",
    fromStep := some "s1" }

/-- Fixture: sort specification over the `name` field. -/
def c6Sort : SortSpec := { sortBy := "name", order := .asc }

/-- Fixture: unsorted items, one with a null sort field. -/
def c6Items : List Item :=
  [{ email := some "b@x.com", name := some "b", raw := "- b (b@x.com)" },
   { email := some "n@x.com", name := none, raw := "- n" },
   { email := some "a@x.com", name := some "a", raw := "- a (a@x.com)" }]

/-- Fixture: an LLM plan response whose first balanced brace span is a valid
plan but which carries a trailing fragment, so the source's
first-`{`-to-last-`}` extraction yields unparseable text. -/
def c8Response : String :=
  "\x7b\"steps\":[\x7b\"id\":\"s1\",\"operation\":\"list\",\"entityType\":\"users\"\x7d]\x7d \x7b\x7d"

/-- Fixture: a valid fenced plan response mentioning an unregistered entity
type. -/
def c8GoodResponse : String :=
  "```json\n\x7b\"steps\":[\x7b\"id\":\"s1\",\"operation\":\"list\",\"entityType\":\"products\"\x7d]\x7d\n```"

/-- Fixture: a `products` configuration whose identifier field is `name`
(registered through `addEntityConfig`, which accepts any configuration). -/
def productsConfig : EntityConfig := {
  table := "products"
  operations := {
    create := some ("functions.products.createProduct")
    delete := some ("functions.products.deleteProduct")
    list := some ("functions.products.listProducts") }
  fields := [("name", { ftype := .string, required := true })]
  identifierField := "name" }

/-- Fixture: registry with `users` and the `name`-identified `products`. -/
def c9Registry : Registry := [("users", usersConfig), ("products", productsConfig)]

/-- Fixture: a parsed item whose parenthesised token (stored under `email`)
differs from its `name` value. -/
def c9Item : Item := { email := some "w1", name := some "Widget", raw := "- Widget (w1)" }

/-- Fixture: prior-result map holding the `products` list result. -/
def c9Prior : List (String × StepResult) :=
  [("s1", { stepId := "s1", success := true, operation := .list,
            entityType := "products", items := some [c9Item], count := some 1,
            ids := some ["w1"], details := some "Products:\n- Widget (w1)" })]

/-- Fixture: a fan-out delete on `products` with no explicit identifier. -/
def c9Step : ExecutionPlanStep :=
  { id := "s2", operation := .delete, entityType := "products",
    fromStep := some "s1" }

/-- Fixture: collaborator oracles for a create whose LLM extraction yields
nothing and whose store accepts everything. -/
def c7Oracles : CrudOracles :=
  { extractLLM := none, store := fun _ => .ok ("created") }

-- ============= HELPER LEMMAS =============

/-- The empty pattern is a prefix of anything. -/
theorem listStartsWith_nil (s : List Char) : listStartsWith s [] = true := by
  cases s <;> rfl

/-- A list starts with itself before any tail. -/
theorem listStartsWith_append_self (p t : List Char) :
    listStartsWith (p ++ t) p = true := by
  induction p with
  | nil => exact listStartsWith_nil t
  | cons c cs ih => simp [listStartsWith, ih]

/-- A pattern is a substring of itself followed by anything. -/
theorem listContainsSub_self_append (p t : List Char) :
    listContainsSub p (p ++ t) = true := by
  cases hpt : p ++ t with
  | nil =>
    have hp : p = [] := by cases p <;> simp_all
    simp [listContainsSub, hp]
  | cons c rest =>
    simp only [listContainsSub]
    rw [← hpt, listStartsWith_append_self]
    simp

/-- Substring containment is preserved by prepending. -/
theorem listContainsSub_append_left (p : List Char) (xs ys : List Char)
    (h : listContainsSub p ys = true) :
    listContainsSub p (xs ++ ys) = true := by
  induction xs with
  | nil => simpa using h
  | cons x xs ih => simp [listContainsSub, ih]

-- ============= C1 =============

/-- C1: for every plan step whose `condition` is present, if the condition
evaluates false or references a step id with no recorded result, the
executor does not invoke the Dispatcher for that step (its call trace is
empty) and resolves it as a `StepResult` with `success = true`,
`meta.skipped = true` and `count = 0`. -/
theorem C1_condition_false_skips_dispatch
    (env : ExecEnv) (reg : Registry) (step : ExecutionPlanStep)
    (priorResults : List (String × StepResult)) (k : Nat) (c : PlanCondition)
    (hc : step.condition = some c)
    (hf : evaluateCondition c priorResults = false ∨
          aFind priorResults c.fromStep = none) :
    executeDynamicOperation env reg step priorResults k =
      (.ok (skippedResult step), [], k) ∧
    (skippedResult step).success = true ∧
    (skippedResult step).meta = some .skippedTag ∧
    (skippedResult step).count = some 0 := by
  have hfalse : evaluateCondition c priorResults = false := by
    rcases hf with h | h
    · exact h
    · unfold evaluateCondition
      rw [h]
  refine ⟨?_, rfl, rfl, rfl⟩
  unfold executeDynamicOperation
  simp [hc, hfalse]

/-- Witness for C1 at a concrete gated step: two recorded users, condition
`count_gt 3`. -/
theorem C1_condition_false_skips_dispatch_witness :
    evaluateCondition { type := .count_gt, fromStep := "s1", value := some 3 }
      c1Prior = false ∧
    executeDynamicOperation envAllOk defaultRegistry c1Step c1Prior 0 =
      (.ok (skippedResult c1Step), [], 0) := by
  have h := C1_condition_false_skips_dispatch envAllOk defaultRegistry c1Step
    c1Prior 0 { type := .count_gt, fromStep := "s1", value := some 3 } rfl
    (Or.inl (by decide))
  exact ⟨by decide, h.1⟩

-- ============= C3 =============

/-- C3: the comparison value of a condition is the referenced result's
`count`, falling back to `items.length` (or `items.length` directly for the
`items.length` field); `count_gt` at the exact count is false while
`count_gte` is true; `exists` holds iff the value is positive and
`not_exists` iff it is zero; and the seven comparators have exactly the
named comparison semantics. -/
theorem C3_condition_comparators
    (priorResults : List (String × StepResult)) (sid : String) (r : StepResult)
    (h : aFind priorResults sid = some r) (f : Option CondField) :
    evaluateCondition ⟨.count_gt, sid, f, some (actualValueOf r f : Int)⟩
      priorResults = false ∧
    evaluateCondition ⟨.count_gte, sid, f, some (actualValueOf r f : Int)⟩
      priorResults = true ∧
    (∀ v, evaluateCondition ⟨.exists_, sid, f, v⟩ priorResults = true ↔
      0 < actualValueOf r f) ∧
    (∀ v, evaluateCondition ⟨.not_exists, sid, f, v⟩ priorResults = true ↔
      actualValueOf r f = 0) ∧
    (∀ t v, evaluateCondition ⟨t, sid, f, some v⟩ priorResults =
      (match t with
       | .count_gt => decide ((actualValueOf r f : Int) > v)
       | .count_gte => decide ((actualValueOf r f : Int) ≥ v)
       | .count_lt => decide ((actualValueOf r f : Int) < v)
       | .count_lte => decide ((actualValueOf r f : Int) ≤ v)
       | .count_eq => decide ((actualValueOf r f : Int) = v)
       | .exists_ => decide (0 < actualValueOf r f)
       | .not_exists => decide (actualValueOf r f = 0))) ∧
    actualValueOf r none = (match r.count with
      | some n => n
      | none => match r.items with
        | some its => its.length
        | none => 0) ∧
    actualValueOf r (some .itemsLength) = (match r.items with
      | some its => its.length
      | none => 0) := by
  refine ⟨?_, ?_, ?_, ?_, ?_, rfl, rfl⟩
  · simp [evaluateCondition, h]
  · simp [evaluateCondition, h]
  · intro v
    cases v <;> simp [evaluateCondition, h]
  · intro v
    cases v <;> simp [evaluateCondition, h]
  · intro t v
    cases t <;> simp [evaluateCondition, h]

/-- Witness for C3 on the recorded two-user list result. -/
theorem C3_condition_comparators_witness :
    evaluateCondition { type := .count_gt, fromStep := "s1", value := some 2 }
      c1Prior = false ∧
    evaluateCondition { type := .count_gte, fromStep := "s1", value := some 2 }
      c1Prior = true ∧
    evaluateCondition { type := .exists_, fromStep := "s1" } c1Prior = true := by
  have h := C3_condition_comparators c1Prior "s1"
    { stepId := "s1", success := true, operation := .list,
      entityType := "users", items := some [], count := some 2,
      ids := some [], details := some "ok" } rfl none
  exact ⟨h.1, h.2.1, (h.2.2.1 none).mpr (by decide)⟩

-- ============= C9 =============

/-- C9 (code bug): the fan-out derives the per-item identifier from the
item's hardcoded `email` property, not from the entity type's configured
identifier field.  For a `products` entity identified by `name`, the item
parsed from the store line `- Widget (w1)` carries `Widget` in its
identifier field, yet the single Dispatcher call passes `w1` (the `email`
property) as the identifier value. -/
theorem C9_fanout_identifier_hardcodes_email :
    parseItemLine "- Widget (w1)" = c9Item ∧
    itemGet c9Item productsConfig.identifierField = some (.jstr ("Widget")) ∧
    (mkItemStep c9Step c9Item).identifier = some ("w1") ∧
    (executeOnPriorStepItems envAllOk c9Registry c9Step c9Prior 0).2.1 =
      [{ operation := .DELETE, entityType := "products",
         input := "identifier: w1", entities := [("name", "w1")] }] ∧
    ("w1" : String) ≠ "Widget" := by
  refine ⟨by decide, rfl, rfl, by decide, by decide⟩

-- ============= C10 =============

/-- C10 (code bug): when both the primary LLM call and the plain-text
fallback call fail, the returned last-resort message is a fixed template
that hardcodes the noun `users` and totally ignores the live entity list
(the result does not depend on the database context, and mentions `users`
but not `products` even when `products` is available); the coordinator-side
`generateFallbackResponse` last resort interpolates nothing at all. -/
theorem C10_fallback_ignores_entity_list :
    (∀ (ctx1 ctx2 : DbContext) (input : String),
      generateResponseMessage (.error ("boom")) (.error ("boom")) input ctx1 =
      generateResponseMessage (.error ("boom")) (.error ("boom")) input ctx2) ∧
    generateResponseMessage (.error ("network error")) (.error ("network error"))
      "hello" { userCount := 3, availableEntities := ["users", "products"] } =
      adaptiveLastResortMessage "hello" ∧
    containsSubstr (adaptiveLastResortMessage "hello") ("users") = true ∧
    containsSubstr (adaptiveLastResortMessage "hello") ("products") = false ∧
    generateFallbackResponseMessage (.error ("network error")) =
      fallbackLastResortMessage ∧
    containsSubstr fallbackLastResortMessage ("products") = false := by
  refine ⟨fun _ _ _ => rfl, rfl, by decide, by decide, rfl, by decide⟩

-- ============= C5 =============

/-- C5 counterexample: for the unregistered entity type `products`, the
Dispatcher's `error` field reads `Unknown entity type: products` — it does
not mention "not configured" (the `details` field does). -/
theorem C5_counterexample :
    (handleCrudOperation defaultRegistry ⟨none, fun _ => .ok ("ok")⟩ .LIST
      "products" []).1.success = false ∧
    containsSubstr ((handleCrudOperation defaultRegistry
      ⟨none, fun _ => .ok ("ok")⟩ .LIST "products" []).1.error.getD "")
      ("not configured") = false ∧
    (handleCrudOperation defaultRegistry ⟨none, fun _ => .ok ("ok")⟩ .LIST
      "products" []).1.error = some ("Unknown entity type: products") ∧
    containsSubstr ((handleCrudOperation defaultRegistry
      ⟨none, fun _ => .ok ("ok")⟩ .LIST "products" []).1.details)
      ("not configured") = true := by
  refine ⟨rfl, by decide, rfl, by decide⟩

/-- C5 (amended): dispatching any operation on an entity type with no
registered configuration returns, without consulting the store, a
`CrudResult` with `success = false` whose `details` mention "not
configured" and whose `error` reads `Unknown entity type: ...`; nothing is
thrown past the Dispatcher boundary, and a plain plan step on such an
entity type resolves (no exception escapes) as a failed `StepResult`
carrying that error. -/
theorem C5_unconfigured_entity_dispatch
    (reg : Registry) (oracles : CrudOracles) (op : CrudOp) (et : String)
    (entities : List (String × String)) (h : aFind reg et = none) :
    handleCrudOperation reg oracles op et entities =
      ({ success := false, operation := op.opName, table := et,
         details := "Entity type '" ++ et ++ "' not configured",
         error := some ("Unknown entity type: " ++ et) }, []) ∧
    containsSubstr ("Entity type '" ++ et ++ "' not configured")
      ("not configured") = true ∧
    (∀ (oraclesAt : Nat → CrudOracles) (step : ExecutionPlanStep)
       (priorResults : List (String × StepResult)) (k : Nat),
      step.entityType = et → step.condition = none → step.fromStep = none →
      step.repeatN = none →
      executeDynamicOperation (dispatcherEnv reg oraclesAt) reg step
          priorResults k =
        (.ok (postProcessSingle step
          { success := false, operation := step.operation.toUpper.opName,
            table := et,
            details := "Entity type '" ++ et ++ "' not configured",
            error := some ("Unknown entity type: " ++ et) }),
         [buildDispatchCall reg step], k + 1) ∧
      ∀ res : StepResult,
        res = postProcessSingle step
          { success := false, operation := step.operation.toUpper.opName,
            table := et,
            details := "Entity type '" ++ et ++ "' not configured",
            error := some ("Unknown entity type: " ++ et) } →
        res.success = false ∧
        res.error = some ("Unknown entity type: " ++ et)) := by
  refine ⟨?_, ?_, ?_⟩
  · unfold handleCrudOperation
    rw [h]
  · show containsSubstr (("Entity type '" ++ et) ++ "' not configured") _ = true
    unfold containsSubstr
    rw [String.data_append]
    exact listContainsSub_append_left _ _ _ (by decide)
  · intro oraclesAt step priorResults k het hcond hfrom hrep
    constructor
    · have hred : executeDynamicOperation (dispatcherEnv reg oraclesAt) reg step
          priorResults k =
          executeSingleOperation (dispatcherEnv reg oraclesAt) reg step k := by
        unfold executeDynamicOperation executeAfterCondition
        rw [hcond, hfrom, hrep]
        rfl
      rw [hred]
      have hbc : (buildDispatchCall reg step).entityType = et := by
        simp [buildDispatchCall, het]
      have hresp : (dispatcherEnv reg oraclesAt).respond k
          (buildDispatchCall reg step) =
          .ok { success := false,
                operation := (buildDispatchCall reg step).operation.opName,
                table := et,
                details := "Entity type '" ++ et ++ "' not configured",
                error := some ("Unknown entity type: " ++ et) } := by
        show Except.ok (handleCrudOperation reg (oraclesAt k)
          (buildDispatchCall reg step).operation
          (buildDispatchCall reg step).entityType
          (buildDispatchCall reg step).entities).1 = _
        unfold handleCrudOperation
        rw [hbc, h]
      unfold executeSingleOperation
      simp only [hresp]
      rfl
    · intro res hres
      subst hres
      cases hop : step.operation <;>
        simp [postProcessSingle, OperationType.toUpper, hop]

/-- Witness for C5 (amended) at the concrete Scenario-D input. -/
theorem C5_unconfigured_entity_dispatch_witness :
    handleCrudOperation defaultRegistry ⟨none, fun _ => .ok ("ok")⟩ .LIST
      "products" [] =
      ({ success := false, operation := "LIST", table := "products",
         details := "Entity type 'products' not configured",
         error := some ("Unknown entity type: products") }, []) ∧
    containsSubstr ("Entity type 'products' not configured")
      ("not configured") = true := by
  have h := C5_unconfigured_entity_dispatch defaultRegistry
    ⟨none, fun _ => .ok ("ok")⟩ .LIST "products" [] rfl
  exact ⟨h.1, h.2.1⟩

-- ============= C2 =============

/-- Every executed step list yields exactly one result per step. -/
theorem executePlanAux_length (env : ExecEnv) (reg : Registry) :
    ∀ (steps : List ExecutionPlanStep) (resultMap : List (String × StepResult))
      (k : Nat),
      (executePlanAux env reg steps resultMap k).length = steps.length := by
  intro steps
  induction steps with
  | nil => intro _ _; rfl
  | cons step rest ih =>
    intro resultMap k
    unfold executePlanAux
    rcases hE : executeDynamicOperation env reg step resultMap k with ⟨exc, calls, k1⟩
    cases exc <;> simp [ih]

/-- A successful single operation carries the step's id. -/
theorem executeSingleOperation_stepId (env : ExecEnv) (reg : Registry)
    (step : ExecutionPlanStep) (k : Nat) (r : StepResult)
    (calls : List DispatchCall) (k1 : Nat)
    (h : executeSingleOperation env reg step k = (.ok r, calls, k1)) :
    r.stepId = step.id := by
  unfold executeSingleOperation at h
  split at h
  · simp_all
  · simp only [Prod.mk.injEq, Except.ok.injEq] at h
    rw [← h.1]
    rfl

/-- The stepId of the record produced by a successful dispatch. -/
theorem postProcessSingle_stepId (step : ExecutionPlanStep) (c : CrudResult) :
    (postProcessSingle step c).stepId = step.id := rfl

/-- A successful repetition carries the step's id. -/
theorem executeRepeated_stepId (env : ExecEnv) (reg : Registry)
    (step : ExecutionPlanStep) (times : Int) (k : Nat) (r : StepResult)
    (calls : List DispatchCall) (k1 : Nat)
    (h : executeRepeated env reg step times k = (.ok r, calls, k1)) :
    r.stepId = step.id := by
  unfold executeRepeated at h
  split at h
  · simp_all
  · simp only [Prod.mk.injEq, Except.ok.injEq] at h
    rw [← h.1]

/-- A successful fan-out carries the step's id. -/
theorem executeOnPriorStepItems_stepId (env : ExecEnv) (reg : Registry)
    (step : ExecutionPlanStep) (priorResults : List (String × StepResult))
    (k : Nat) (r : StepResult) (calls : List DispatchCall) (k1 : Nat)
    (h : executeOnPriorStepItems env reg step priorResults k =
      (.ok r, calls, k1)) :
    r.stepId = step.id := by
  unfold executeOnPriorStepItems at h
  split at h
  · simp only [Prod.mk.injEq, Except.ok.injEq] at h; rw [← h.1]; rfl
  · simp only [Prod.mk.injEq, Except.ok.injEq] at h; rw [← h.1]; rfl
  · split at h
    · simp_all
    · simp only [Prod.mk.injEq, Except.ok.injEq] at h; rw [← h.1]

/-- A successful dynamic step execution carries the step's id. -/
theorem executeDynamicOperation_stepId (env : ExecEnv) (reg : Registry)
    (step : ExecutionPlanStep) (priorResults : List (String × StepResult))
    (k : Nat) (r : StepResult) (calls : List DispatchCall) (k1 : Nat)
    (h : executeDynamicOperation env reg step priorResults k =
      (.ok r, calls, k1)) :
    r.stepId = step.id := by
  unfold executeDynamicOperation executeAfterCondition at h
  repeat' split at h
  all_goals
    first
    | (simp only [Prod.mk.injEq, Except.ok.injEq] at h; rw [← h.1]; rfl)
    | exact executeOnPriorStepItems_stepId env reg step priorResults k r calls k1 h
    | exact executeRepeated_stepId env reg step _ k r calls k1 h
    | exact executeSingleOperation_stepId env reg step k r calls k1 h

/-- The error branch of the plan loop records the step identity and the
thrown message, and keeps executing the remaining steps. -/
theorem executePlanAux_cons_error (env : ExecEnv) (reg : Registry)
    (step : ExecutionPlanStep) (rest : List ExecutionPlanStep)
    (resultMap : List (String × StepResult)) (k : Nat) (e : String)
    (calls : List DispatchCall) (k1 : Nat)
    (h : executeDynamicOperation env reg step resultMap k =
      (.error e, calls, k1)) :
    executePlanAux env reg (step :: rest) resultMap k =
      catchStepResult step e ::
        executePlanAux env reg rest
          (aSet resultMap step.id (catchStepResult step e)) k1 := by
  rw [executePlanAux, h]

/-- Result lists pair step identities positionally with the plan steps. -/
theorem executePlanAux_stepIds (env : ExecEnv) (reg : Registry) :
    ∀ (steps : List ExecutionPlanStep) (resultMap : List (String × StepResult))
      (k : Nat),
      List.Forall₂ (fun (r : StepResult) (s : ExecutionPlanStep) =>
        r.stepId = s.id) (executePlanAux env reg steps resultMap k) steps := by
  intro steps
  induction steps with
  | nil => intro _ _; exact List.Forall₂.nil
  | cons step rest ih =>
    intro resultMap k
    unfold executePlanAux
    rcases hE : executeDynamicOperation env reg step resultMap k with ⟨exc, calls, k1⟩
    cases exc with
    | error e => exact List.Forall₂.cons rfl (ih _ _)
    | ok r =>
      exact List.Forall₂.cons
        (executeDynamicOperation_stepId env reg step resultMap k r calls k1 hE)
        (ih _ _)

/-- C2: `execute` never throws — the plan loop is total, producing exactly
one `StepResult` per plan step with matching step ids; a step whose body
raises is recorded as `success = false` carrying the error message, and the
remaining steps still each produce a result. -/
theorem C2_execute_never_throws (env : ExecEnv) (reg : Registry)
    (plan : ExecutionPlan) :
    (executePlan env reg plan).length = plan.steps.length ∧
    List.Forall₂ (fun (r : StepResult) (s : ExecutionPlanStep) =>
      r.stepId = s.id) (executePlan env reg plan) plan.steps ∧
    (∀ (resultMap : List (String × StepResult)) (k : Nat)
       (step : ExecutionPlanStep) (rest : List ExecutionPlanStep) (e : String)
       (calls : List DispatchCall) (k1 : Nat),
      executeDynamicOperation env reg step resultMap k = (.error e, calls, k1) →
      ∃ tail, executePlanAux env reg (step :: rest) resultMap k =
        ({ stepId := step.id, success := false, operation := step.operation,
           entityType := step.entityType, error := some e } : StepResult) ::
          tail ∧
        tail.length = rest.length) := by
  refine ⟨executePlanAux_length env reg plan.steps [] 0,
    executePlanAux_stepIds env reg plan.steps [] 0, ?_⟩
  intro resultMap k step rest e calls k1 h
  refine ⟨executePlanAux env reg rest
    (aSet resultMap step.id (catchStepResult step e)) k1, ?_, ?_⟩
  · exact executePlanAux_cons_error env reg step rest resultMap k e calls k1 h
  · exact executePlanAux_length env reg rest _ k1

/-- Witness for C2: a two-step plan against an environment whose every
dispatch throws still yields two recorded results, the first carrying the
error. -/
theorem C2_execute_never_throws_witness :
    (executePlan envBoom defaultRegistry c2Plan).length = 2 ∧
    ∃ tail, executePlanAux envBoom defaultRegistry c2Plan.steps [] 0 =
      ({ stepId := "a", success := false, operation := .list,
         entityType := "users", error := some ("boom") } : StepResult) ::
        tail ∧
      tail.length = 1 := by
  have h := C2_execute_never_throws envBoom defaultRegistry c2Plan
  refine ⟨h.1, ?_⟩
  exact h.2.2 [] 0 { id := "a", operation := .list, entityType := "users" }
    [{ id := "b", operation := .create, entityType := "users",
       data := some [("name", .jstr "X"), ("email", .jstr "x@y.com")] }]
    "boom" [buildDispatchCall defaultRegistry
      { id := "a", operation := .list, entityType := "users" }] 1 rfl

-- ============= C4 =============

/-- A completed per-item loop issues exactly one Dispatcher call per item
and produces one per-item result per item. -/
theorem runItems_ok_lengths (env : ExecEnv) (reg : Registry)
    (step : ExecutionPlanStep) :
    ∀ (items : List Item) (k : Nat) (results : List StepResult)
      (calls : List DispatchCall) (k1 : Nat),
      runItems env reg step items k = (.ok results, calls, k1) →
      calls.length = items.length ∧ results.length = items.length := by
  intro items
  induction items with
  | nil =>
    intro k results calls k1 h
    unfold runItems at h
    simp only [Prod.mk.injEq, Except.ok.injEq] at h
    simp [← h.1, ← h.2.1]
  | cons item rest ih =>
    intro k results calls k1 h
    unfold runItems at h
    rcases hsingle : executeSingleOperation env reg (mkItemStep step item) k
      with ⟨exc, callsS, kS⟩
    have hcallsS : callsS = [buildDispatchCall reg (mkItemStep step item)] := by
      have hproj := congrArg (fun t => t.2.1) hsingle
      simp only at hproj
      rw [← hproj]
      unfold executeSingleOperation
      split <;> rfl
    rw [hsingle] at h
    cases exc with
    | error e => simp at h
    | ok r =>
      simp only at h
      rcases hrest : runItems env reg step rest kS with ⟨excR, callsR, kR⟩
      rw [hrest] at h
      cases excR with
      | error e => simp at h
      | ok rs =>
        simp only [Prod.mk.injEq, Except.ok.injEq] at h
        obtain ⟨h1, h2, h3⟩ := h
        have hr := ih kS rs callsR kR hrest
        constructor
        · rw [← h2, hcallsS]
          simp [hr.1]
        · rw [← h1]
          simp [hr.2]

/-- The count aggregation fold equals the sum of the per-result counts. -/
theorem aggCount_eq_map_sum (results : List StepResult) :
    aggCount results = (results.map (fun r => r.count.getD 0)).sum := by
  have key : ∀ (l : List StepResult) (a : Nat),
      List.foldl (fun sum r => sum + r.count.getD 0) a l =
      a + (l.map (fun r => r.count.getD 0)).sum := by
    intro l
    induction l with
    | nil => intro a; simp
    | cons x xs ih =>
      intro a
      simp only [List.foldl_cons, List.map_cons, List.sum_cons, ih]
      omega
  simpa [aggCount] using key results 0

/-- C4: a fan-out step over a referenced result with missing or empty items
resolves as a trivial success with `count = 0` and no Dispatcher call;
otherwise the Dispatcher is invoked exactly once per item and the aggregate
result's `success` is the conjunction of the per-item successes, its
`count` the sum of the per-item counts and its `ids` the in-order
concatenation of the per-item ids. -/
theorem C4_fanout_aggregation (env : ExecEnv) (reg : Registry)
    (step : ExecutionPlanStep) (priorResults : List (String × StepResult))
    (k : Nat) (fs : String) (hfs : step.fromStep = some fs) :
    ((aFind priorResults fs = none ∨
      (∃ p, aFind priorResults fs = some p ∧
        (p.items = none ∨ p.items = some []))) →
      executeOnPriorStepItems env reg step priorResults k =
        (.ok (noItemsResult step), [], k) ∧
      (noItemsResult step).success = true ∧
      (noItemsResult step).count = some 0) ∧
    (∀ (p : StepResult) (items : List Item) (results : List StepResult)
       (calls : List DispatchCall) (k1 : Nat),
      aFind priorResults fs = some p → p.items = some items → items ≠ [] →
      runItems env reg step items k = (.ok results, calls, k1) →
      executeOnPriorStepItems env reg step priorResults k =
        (.ok { stepId := step.id, success := results.all (·.success),
               operation := step.operation, entityType := step.entityType,
               count := some ((results.map (fun r => r.count.getD 0)).sum),
               ids := some ((results.map (fun r => r.ids.getD [])).flatten),
               details := some ("Processed " ++ toString items.length ++
                 " items from " ++ fs),
               meta := some (.processedItemsTag items.length) },
         calls, k1) ∧
      calls.length = items.length) := by
  constructor
  · intro hempty
    refine ⟨?_, rfl, rfl⟩
    unfold executeOnPriorStepItems
    have hpi : priorItemsOf step priorResults = none ∨
        priorItemsOf step priorResults = some [] := by
      unfold priorItemsOf
      rw [hfs]
      rcases hempty with hnone | ⟨p, hp, hitems⟩
      · simp [hnone]
      · rcases hitems with h1 | h1 <;> simp [hp, h1]
    rcases hpi with hpi | hpi <;> rw [hpi]
  · intro p items results calls k1 hp hitems hne hrun
    have hlen := runItems_ok_lengths env reg step items k results calls k1 hrun
    constructor
    · unfold executeOnPriorStepItems
      have hpi : priorItemsOf step priorResults = some items := by
        unfold priorItemsOf
        rw [hfs]
        simp [hp, hitems]
      rw [hpi]
      match items, hne, hrun with
      | item :: restItems, _, hrun =>
        simp only
        rw [hrun]
        simp [aggSuccess, aggIds, aggCount_eq_map_sum, hfs]
    · exact hlen.1

/-- Witness for C4: a two-item fan-out delete against an always-succeeding
environment. -/
theorem C4_fanout_aggregation_witness :
    ∃ results calls k1,
      runItems envAllOk defaultRegistry c4Step [c4Item1, c4Item2] 0 =
        (.ok results, calls, k1) ∧
      executeOnPriorStepItems envAllOk defaultRegistry c4Step c4Prior 0 =
        (.ok { stepId := "s2", success := results.all (·.success),
               operation := .delete, entityType := "users",
               count := some ((results.map (fun r => r.count.getD 0)).sum),
               ids := some ((results.map (fun r => r.ids.getD [])).flatten),
               details := some ("Processed 2 items from s1"),
               meta := some (.processedItemsTag 2) },
         calls, k1) ∧
      calls.length = 2 := by
  obtain ⟨results, calls, k1, hrun⟩ :
      ∃ results calls k1,
        runItems envAllOk defaultRegistry c4Step [c4Item1, c4Item2] 0 =
          (.ok results, calls, k1) := ⟨_, _, _, rfl⟩
  have h := (C4_fanout_aggregation envAllOk defaultRegistry c4Step c4Prior 0
    "s1" rfl).2 _ [c4Item1, c4Item2] results calls k1 rfl rfl (by simp) hrun
  exact ⟨results, calls, k1, hrun, h.1, h.2⟩

-- ============= C6 =============

/-- The comparator never puts a null-keyed item before anything. -/
theorem cmpItems_lt_of_nullish (s : SortSpec) (x y : Item)
    (hx : nullishAt s x = true) :
    decide (cmpItems s x y < 0) = false := by
  have hx2 : itemGet x s.sortBy = none ∨ itemGet x s.sortBy = some .jnull := by
    simpa [nullishAt] using hx
  rcases hx2 with h | h <;>
    by_cases heq : itemGet x s.sortBy = itemGet y s.sortBy <;>
    simp [cmpItems, heq, h] <;>
    (split <;> omega)

/-- The comparator always puts a non-null-keyed item before a null-keyed
one, in both sort directions. -/
theorem cmpItems_lt_nonnull_nullish (s : SortSpec) (x y : Item)
    (hx : nullishAt s x = false) (hy : nullishAt s y = true) :
    decide (cmpItems s x y < 0) = true := by
  have hxn : ¬(itemGet x s.sortBy = none) ∧
      ¬(itemGet x s.sortBy = some .jnull) := by
    constructor <;> intro h <;> simp [nullishAt, h] at hx
  have hy2 : itemGet y s.sortBy = none ∨ itemGet y s.sortBy = some .jnull := by
    simpa [nullishAt] using hy
  have hneq : ¬(itemGet x s.sortBy = itemGet y s.sortBy) := by
    intro hcon
    rcases hy2 with h | h
    · exact hxn.1 (hcon.trans h)
    · exact hxn.2 (hcon.trans h)
  rcases hy2 with h | h <;> simp [cmpItems, hneq, hxn.1, hxn.2, h]

/-- Inserting an element that never precedes appends it at the end. -/
theorem sInsert_append_of_all_false (lt : Item → Item → Bool) (x : Item) :
    ∀ (l : List Item), (∀ y ∈ l, lt x y = false) →
      sInsert lt x l = l ++ [x] := by
  intro l
  induction l with
  | nil => intro _; rfl
  | cons y ys ih =>
    intro hall
    unfold sInsert
    rw [hall y (by simp)]
    simp only [Bool.false_eq_true, if_false, List.cons_append, List.cons.injEq,
      true_and]
    exact ih (fun z hz => hall z (by simp [hz]))

/-- Inserting an element that precedes every element of the suffix inserts
it within (or at the end of) the prefix. -/
theorem sInsert_append_right (lt : Item → Item → Bool) (x : Item) :
    ∀ (A N : List Item), (∀ y ∈ N, lt x y = true) →
      sInsert lt x (A ++ N) = (sInsert lt x A) ++ N := by
  intro A
  induction A with
  | nil =>
    intro N hN
    cases N with
    | nil => rfl
    | cons y ys =>
      simp only [List.nil_append, sInsert]
      rw [hN y (by simp)]
      simp [sInsert]
  | cons a A2 ih =>
    intro N hN
    simp only [List.cons_append, sInsert]
    cases hlt : lt x a
    · simp only [Bool.false_eq_true, if_false, List.cons_append,
        List.cons.injEq, true_and]
      exact ih N hN
    · simp

/-- Insertion grows the length by one. -/
theorem sInsert_length (lt : Item → Item → Bool) (x : Item) :
    ∀ (l : List Item), (sInsert lt x l).length = l.length + 1 := by
  intro l
  induction l with
  | nil => rfl
  | cons y ys ih =>
    unfold sInsert
    cases lt x y <;> simp_all

/-- Sorting preserves the number of items. -/
theorem sortItems_length (items : List Item) (s : SortSpec) :
    (sortItems items s).length = items.length := by
  have key : ∀ (l : List Item) (acc : List Item),
      (l.foldl (fun acc x =>
        sInsert (fun a b => decide (cmpItems s a b < 0)) x acc) acc).length =
      acc.length + l.length := by
    intro l
    induction l with
    | nil => intro acc; simp
    | cons x xs ih =>
      intro acc
      simp only [List.foldl_cons, ih, sInsert_length, List.length_cons]
      omega
  simpa [sortItems] using key items []

/-- The fold of the stable insertion sort sends every null-keyed element to
a suffix, in encounter order, independently of the sort direction. -/
theorem foldIns_nulls_decompose (s : SortSpec) :
    ∀ (l A N : List Item), (∀ y ∈ N, nullishAt s y = true) →
      l.foldl (fun acc x =>
        sInsert (fun a b => decide (cmpItems s a b < 0)) x acc) (A ++ N) =
      ((l.filter (fun it => !nullishAt s it)).foldl (fun acc x =>
        sInsert (fun a b => decide (cmpItems s a b < 0)) x acc) A) ++
      (N ++ l.filter (fun it => nullishAt s it)) := by
  intro l
  induction l with
  | nil => intro A N _; simp
  | cons x l ih =>
    intro A N hN
    simp only [List.foldl_cons]
    cases hx : nullishAt s x
    · have hstep : sInsert (fun a b => decide (cmpItems s a b < 0)) x (A ++ N) =
          (sInsert (fun a b => decide (cmpItems s a b < 0)) x A) ++ N :=
        sInsert_append_right _ x A N
          (fun y hy => cmpItems_lt_nonnull_nullish s x y hx (hN y hy))
      rw [hstep, ih (sInsert _ x A) N hN]
      simp [List.filter_cons, hx]
    · have hstep : sInsert (fun a b => decide (cmpItems s a b < 0)) x (A ++ N) =
          A ++ (N ++ [x]) := by
        rw [sInsert_append_of_all_false _ x (A ++ N)
          (fun y _ => cmpItems_lt_of_nullish s x y hx)]
        simp
      rw [hstep, ih A (N ++ [x])
        (by intro y hy
            rcases List.mem_append.mp hy with h | h
            · exact hN y h
            · simp only [List.mem_singleton] at h
              rw [h]
              exact hx)]
      simp [List.filter_cons, hx]

/-- The sorted list is the sorted non-null-keyed items followed by the
null-keyed items in their original order. -/
theorem sortItems_nulls_last (s : SortSpec) (items : List Item) :
    sortItems items s =
      sortItems (items.filter (fun it => !nullishAt s it)) s ++
        items.filter (fun it => nullishAt s it) := by
  have := foldIns_nulls_decompose s items [] [] (by intro y hy; cases hy)
  simpa [sortItems] using this

/-- Sorting the empty list gives the empty list. -/
theorem sortItems_nil (s : SortSpec) : sortItems [] s = [] := rfl

/-- With `sort` present and a positive `limit`, the executor's sort-and-limit
pass equals fully sorting and then truncating, and records the truncated
length as the count. -/
theorem applySortLimit_pos (s : SortSpec) (l : Int) (items : List Item)
    (hl : 1 ≤ l) :
    applySortLimit (some s) (some l) items =
      ((sortItems items s).take l.toNat,
       ((sortItems items s).take l.toNat).length) := by
  have hz : (l != 0) = true := by
    simp only [bne_iff_ne, ne_eq]
    omega
  have h0l : (0 : Int) ≤ l := by omega
  by_cases hnil : items = []
  · subst hnil
    have hgt : ¬((((sortItems ([] : List Item) s).length) : Int) > l) := by
      simp [sortItems_nil]
      omega
    simp [applySortLimit, sortItems_nil, hz, hgt]
    intro hneg
    exact absurd hneg (by omega)
  · have hpos : items.length > 0 := List.length_pos.mpr hnil
    by_cases hgt : (((sortItems items s).length) : Int) > l
    · have hsl : jsSlice (sortItems items s) l =
          (sortItems items s).take l.toNat := by
        unfold jsSlice
        simp [h0l]
      simp [applySortLimit, hpos, hz, hgt, hsl]
    · have hle : (sortItems items s).length ≤ l.toNat := by omega
      simp [applySortLimit, hpos, hz, hgt, List.take_of_length_le hle,
        sortItems_length]
      intro hcon
      exact absurd hcon (by
        have hlen := sortItems_length items s
        omega)

/-- C6 (amended): for a list result with `sort` set and a positive `limit`,
the executor's items equal the full stable sort truncated to the limit, the
recorded count is the length of that truncation, the ids are computed from
the truncated sorted list, and null-keyed items sort last regardless of
direction. -/
theorem C6_sort_full_then_truncate (s : SortSpec) (l : Int)
    (items : List Item) (hl : 1 ≤ l) :
    (applySortLimit (some s) (some l) items).1 =
      (sortItems items s).take l.toNat ∧
    (applySortLimit (some s) (some l) items).2 =
      ((sortItems items s).take l.toNat).length ∧
    listIds (applySortLimit (some s) (some l) items).1 =
      listIds ((sortItems items s).take l.toNat) ∧
    sortItems items s =
      sortItems (items.filter (fun it => !nullishAt s it)) s ++
        items.filter (fun it => nullishAt s it) := by
  have heq := applySortLimit_pos s l items hl
  exact ⟨by rw [heq], by rw [heq], by rw [heq], sortItems_nulls_last s items⟩

/-- Witness for C6 at a three-item fixture with a null key and limit 1. -/
theorem C6_sort_full_then_truncate_witness :
    (1 : Int) ≤ 1 ∧
    (applySortLimit (some c6Sort) (some 1) c6Items).1 =
      (sortItems c6Items c6Sort).take (1 : Int).toNat :=
  ⟨by decide, (C6_sort_full_then_truncate c6Sort 1 c6Items (by decide)).1⟩

/-- C6 counterexample: with `limit := 0` (a falsy value) the executor skips
truncation entirely, so the resulting items differ from fully sorting and
then truncating to the limit. -/
theorem C6_counterexample :
    (applySortLimit (some c6Sort) (some 0) c6Items).1 ≠
      (sortItems c6Items c6Sort).take ((0 : Int)).toNat := by
  decide

-- ============= C7 =============

/-- One step of the validator loop, phrased through `validatorRejects`. -/
theorem findInvalidField_cons (config : EntityConfig) (f : String) (v : JValue)
    (rest : List (String × JValue)) :
    findInvalidField config ((f, v) :: rest) =
      if validatorRejects config (f, v) then some f
      else findInvalidField config rest := by
  rcases hfc : aFind config.fields f with _ | fc
  · simp [findInvalidField, validatorRejects, hfc]
  · rcases hval : fc.validate with _ | validator
    · simp [findInvalidField, validatorRejects, hfc, hval]
    · simp [findInvalidField, validatorRejects, hfc, hval]

/-- The required-field loop finds nothing iff every declared required field
is truthy in the data. -/
theorem findMissingRequired_none_iff (fields : List (String × FieldConfig))
    (data : List (String × JValue)) :
    findMissingRequired fields data = none ↔
    fields.all (fun kv => !(kv.2.required && !jsTruthy (aFind data kv.1))) =
      true := by
  induction fields with
  | nil => simp [findMissingRequired]
  | cons kv rest ih =>
    obtain ⟨f, fc⟩ := kv
    by_cases hbad : (fc.required && !jsTruthy (aFind data f)) = true
    · have hl : findMissingRequired ((f, fc) :: rest) data = some f := by
        simp [findMissingRequired, hbad]
      rw [hl, List.all_cons]
      simp only [hbad, Bool.not_true, Bool.false_and]
      simp
    · simp only [Bool.not_eq_true] at hbad
      have hl : findMissingRequired ((f, fc) :: rest) data =
          findMissingRequired rest data := by
        simp [findMissingRequired, hbad]
      rw [hl, List.all_cons]
      simp only [hbad, Bool.not_false, Bool.true_and]
      exact ih

/-- A field reported missing by the required-field loop really is a
declared required field with a falsy data value. -/
theorem findMissingRequired_some (fields : List (String × FieldConfig))
    (data : List (String × JValue)) (f : String)
    (h : findMissingRequired fields data = some f) :
    fields.any (fun kv => kv.1 = f && kv.2.required &&
      !jsTruthy (aFind data kv.1)) = true := by
  induction fields with
  | nil => simp [findMissingRequired] at h
  | cons kv rest ih =>
    obtain ⟨g, fc⟩ := kv
    by_cases hbad : (fc.required && !jsTruthy (aFind data g)) = true
    · have hgf : g = f := by
        simp [findMissingRequired, hbad] at h
        exact h
      subst hgf
      simp only [Bool.and_eq_true] at hbad
      simp [List.any_cons, hbad.1, hbad.2]
    · simp only [Bool.not_eq_true] at hbad
      have h2 : findMissingRequired rest data = some f := by
        simpa [findMissingRequired, hbad] using h
      simp [List.any_cons, ih h2]

/-- The validator loop finds nothing iff no data entry trips its declared
validator. -/
theorem findInvalidField_none_iff (config : EntityConfig)
    (data : List (String × JValue)) :
    findInvalidField config data = none ↔
    data.all (fun kv => !validatorRejects config kv) = true := by
  induction data with
  | nil => simp [findInvalidField]
  | cons kv rest ih =>
    obtain ⟨f, v⟩ := kv
    rw [findInvalidField_cons]
    by_cases hv : validatorRejects config (f, v) = true
    · simp [hv]
    · simp only [Bool.not_eq_true] at hv
      simp [hv, ih]

/-- A field reported invalid by the validator loop really has a data entry
tripping its declared validator. -/
theorem findInvalidField_some (config : EntityConfig)
    (data : List (String × JValue)) (f : String)
    (h : findInvalidField config data = some f) :
    data.any (fun kv => kv.1 = f && validatorRejects config kv) = true := by
  induction data with
  | nil => simp [findInvalidField] at h
  | cons kv rest ih =>
    obtain ⟨g, v⟩ := kv
    rw [findInvalidField_cons] at h
    by_cases hv : validatorRejects config (g, v) = true
    · rw [if_pos hv] at h
      injection h with h
      subst h
      simp [List.any_cons, hv]
    · rw [if_neg hv] at h
      simp [List.any_cons, ih h]

/-- On `CREATE`, a draft record with a falsy required field or a
validator-tripping entry makes `validateEntityData` fail with a message
naming an offending field. -/
theorem validateEntityData_create_fail (config : EntityConfig)
    (data : List (String × JValue))
    (hbad : config.fields.any
        (fun kv => kv.2.required && !jsTruthy (aFind data kv.1)) = true ∨
      data.any (validatorRejects config) = true) :
    ∃ f, (validateEntityData config data .CREATE =
            { valid := false, error := some (requiredMsg f) } ∧
          config.fields.any (fun kv => kv.1 = f && kv.2.required &&
            !jsTruthy (aFind data kv.1)) = true) ∨
         (validateEntityData config data .CREATE =
            { valid := false, error := some (invalidMsg f) } ∧
          data.any (fun kv => kv.1 = f && validatorRejects config kv) = true) := by
  rcases hmiss : findMissingRequired config.fields data with _ | f
  · have hall := (findMissingRequired_none_iff config.fields data).mp hmiss
    have hinvany : data.any (validatorRejects config) = true := by
      rcases hbad with hany | hany
      · exfalso
        rw [List.any_eq_true] at hany
        obtain ⟨kv, hmem, hkv⟩ := hany
        rw [List.all_eq_true] at hall
        have := hall kv hmem
        simp only [Bool.not_eq_true'] at this
        rw [this] at hkv
        cases hkv
      · exact hany
    rcases hinv : findInvalidField config data with _ | f
    · exfalso
      have hall2 := (findInvalidField_none_iff config data).mp hinv
      rw [List.any_eq_true] at hinvany
      obtain ⟨kv, hmem, hkv⟩ := hinvany
      rw [List.all_eq_true] at hall2
      have := hall2 kv hmem
      simp only [Bool.not_eq_true'] at this
      rw [this] at hkv
      cases hkv
    · refine ⟨f, Or.inr ⟨?_, findInvalidField_some config data f hinv⟩⟩
      simp [validateEntityData, hmiss, hinv]
  · refine ⟨f, Or.inl ⟨?_, findMissingRequired_some config.fields data f hmiss⟩⟩
    simp [validateEntityData, hmiss]

/-- C7: a create dispatch whose merged draft record misses a required field
or trips a custom validator returns `success == false` with a message naming
the offending field, and the store is never called — validation
short-circuits before any store call. -/
theorem C7_create_validation_short_circuits
    (reg : Registry) (oracles : CrudOracles) (entityType : String)
    (config : EntityConfig) (createOp : String)
    (entities : List (String × String)) (data : List (String × JValue))
    (hreg : aFind reg entityType = some config)
    (hcreate : config.operations.create = some createOp)
    (hdata : extractEntityData config oracles.extractLLM entities = data)
    (hbad : config.fields.any
        (fun kv => kv.2.required && !jsTruthy (aFind data kv.1)) = true ∨
      data.any (validatorRejects config) = true) :
    (handleCrudOperation reg oracles .CREATE entityType entities).2 = [] ∧
    (handleCrudOperation reg oracles .CREATE entityType entities).1.success
      = false ∧
    ∃ f, ((handleCrudOperation reg oracles .CREATE entityType
              entities).1.error = some (requiredMsg f) ∧
          config.fields.any (fun kv => kv.1 = f && kv.2.required &&
            !jsTruthy (aFind data kv.1)) = true) ∨
         ((handleCrudOperation reg oracles .CREATE entityType
              entities).1.error = some (invalidMsg f) ∧
          data.any (fun kv => kv.1 = f && validatorRejects config kv)
            = true) := by
  obtain ⟨f, hf⟩ := validateEntityData_create_fail config data hbad
  rcases hf with ⟨hv, hany⟩ | ⟨hv, hany⟩
  · have hout : handleCrudOperation reg oracles .CREATE entityType entities =
        ({ success := false, operation := "CREATE", table := config.table,
           details := requiredMsg f, error := some (requiredMsg f) }, []) := by
      simp [handleCrudOperation, handleCreate, hreg, hcreate, hdata, hv]
    rw [hout]
    exact ⟨rfl, rfl, f, Or.inl ⟨rfl, hany⟩⟩
  · have hout : handleCrudOperation reg oracles .CREATE entityType entities =
        ({ success := false, operation := "CREATE", table := config.table,
           details := invalidMsg f, error := some (invalidMsg f) }, []) := by
      simp [handleCrudOperation, handleCreate, hreg, hcreate, hdata, hv]
    rw [hout]
    exact ⟨rfl, rfl, f, Or.inr ⟨rfl, hany⟩⟩

/-- C7 witness: a create of `users` with only a `name` hint (the required
`email` is absent from the draft) reports the missing field and issues no
store call. -/
theorem C7_create_validation_short_circuits_witness :
    (handleCrudOperation defaultRegistry c7Oracles .CREATE "users"
        [("name", "Bob")]).2 = [] ∧
    (handleCrudOperation defaultRegistry c7Oracles .CREATE "users"
        [("name", "Bob")]).1.success = false ∧
    ∃ f, ((handleCrudOperation defaultRegistry c7Oracles .CREATE "users"
              [("name", "Bob")]).1.error = some (requiredMsg f) ∧
          usersConfig.fields.any (fun kv => kv.1 = f && kv.2.required &&
            !jsTruthy (aFind [("name", JValue.jstr "Bob")] kv.1)) = true) ∨
         ((handleCrudOperation defaultRegistry c7Oracles .CREATE "users"
              [("name", "Bob")]).1.error = some (invalidMsg f) ∧
          [("name", JValue.jstr "Bob")].any
            (fun kv => kv.1 = f && validatorRejects usersConfig kv) = true) :=
  C7_create_validation_short_circuits defaultRegistry c7Oracles "users"
    usersConfig "functions.users.createUser" [("name", "Bob")]
    [("name", JValue.jstr "Bob")] rfl rfl rfl (Or.inl (by decide))

/-- C8 counterexample: a response whose first balanced brace span is a valid
plan but which carries a trailing `\x7b\x7d` fragment.  The specification's
balanced-span pipeline accepts it, while the source's greedy
first-`\x7b`-to-last-`\x7d` extraction hands unparseable text to
`JSON.parse`, so plan creation fails. -/
theorem C8_counterexample :
    spec_planPipelineOk c8Response = true ∧
    createExecutionPlan ["users"] c8Response =
      .error ("Plan creation failed: JSON parse error") :=
  ⟨by decide, by rfl⟩

set_option maxHeartbeats 1600000 in
/-- C8 (amended to the source's greedy extraction): plan creation ignores
the registered entity list entirely — an unknown `entityType` never causes
failure — and succeeds exactly when the cleaned response parses to a plan
with a `steps` array all of whose steps carry truthy `id`, `operation` and
`entityType`. -/
theorem C8_plan_creation_characterization (avail : List String)
    (response : String) :
    createExecutionPlan avail response = createExecutionPlan [] response ∧
    ((∃ steps, createExecutionPlan avail response = .ok steps) ↔
      (∃ plan steps, parseJSONresult response = some plan ∧
        jsGetProp plan "steps" = some (.jarr steps) ∧
        validatePlanSteps steps = true)) := by
  refine ⟨rfl, ?_⟩
  constructor
  · rintro ⟨steps, hok⟩
    rcases hp : parseJSONresult response with _ | plan
    · simp [createExecutionPlan, hp] at hok
    · cases plan with
      | jnull => simp [createExecutionPlan, hp] at hok
      | jbool b => simp [createExecutionPlan, hp, jsGetProp] at hok
      | jnum n => simp [createExecutionPlan, hp, jsGetProp] at hok
      | jstr s => simp [createExecutionPlan, hp, jsGetProp] at hok
      | jarr elems => simp [createExecutionPlan, hp, jsGetProp] at hok
      | jobj fields =>
        rcases hs : aFind fields "steps" with _ | v
        · simp [createExecutionPlan, hp, jsGetProp, hs] at hok
        · cases v with
          | jarr steps2 =>
            by_cases hv : validatePlanSteps steps2 = true
            · exact ⟨.jobj fields, steps2, rfl, by simp [jsGetProp, hs], hv⟩
            · simp only [Bool.not_eq_true] at hv
              simp [createExecutionPlan, hp, jsGetProp, hs, hv] at hok
          | jnull => simp [createExecutionPlan, hp, jsGetProp, hs] at hok
          | jbool b => simp [createExecutionPlan, hp, jsGetProp, hs] at hok
          | jnum n => simp [createExecutionPlan, hp, jsGetProp, hs] at hok
          | jstr s => simp [createExecutionPlan, hp, jsGetProp, hs] at hok
          | jobj fs => simp [createExecutionPlan, hp, jsGetProp, hs] at hok
  · rintro ⟨plan, steps, hp, hs, hv⟩
    cases plan with
    | jnull => simp [jsGetProp] at hs
    | jbool b => simp [jsGetProp] at hs
    | jnum n => simp [jsGetProp] at hs
    | jstr s => simp [jsGetProp] at hs
    | jarr elems => simp [jsGetProp] at hs
    | jobj fields =>
      simp only [jsGetProp] at hs
      exact ⟨steps, by simp [createExecutionPlan, hp, jsGetProp, hs, hv]⟩
